import Mathlib

/-!
# Verification of the btl_agencies_collector core logic

A shallow embedding of the record model, relevance filters, segment
classifiers, field extractors and merge/deduplication logic of the
`btl_agencies_collector` repository (files `src/base_parser.py`,
`src/fns_parser.py`, `src/listorg_parser.py`, `src/main.py`,
`src/parser.py`, `src/rusprofile_parser.py`, `src/ruward_parser.py`),
together with theorems about the spec's claims.

Modelling conventions:

* Python strings are Lean `String`s / `List Char`; Python `str.lower()`
  is modelled for the ASCII and Cyrillic alphabets (the only alphabets
  appearing in the rule tables of the source).
* Python `str.isdigit()` is modelled as "all characters are ASCII decimal
  digits" (the identifiers handled by the code are ASCII digit strings).
* Python `\s` / `str.strip()` whitespace is modelled as the ASCII
  whitespace characters; exotic Unicode whitespace is not modelled.
* A record field that is absent or `None` is `Option.none`.  Call sites
  that run `str(...)` on a possibly-`None` value (yielding `"None"`) use
  `pyStrOpt`; call sites that use `dict.get(key, '')` use `Option.getD ""`.
* The regular expressions of the source belong to a few fixed families
  (a literal label, bounded skips, a digit/whitespace capture, a literal
  suffix); each family is implemented directly with Python `re.search`
  semantics (leftmost match, greedy quantifiers with backtracking), which
  for these families is deterministic as computed in each matcher.
* `hashlib.md5` identities in the aggregator are modelled by an inductive
  key type keyed on the exact string/record that Python hashes; md5
  collisions between distinct inputs are not modelled, and no theorem
  below depends on the absence or presence of such collisions.
* Markup-tree lookups (BeautifulSoup `find`/`find_all`) are external
  collaborators per the spec's scope; their results are parameters of the
  embedded functions.
-/

/-! ## Python string primitives -/

/-- Python `\s` / default `str.strip()` whitespace, restricted to ASCII. -/
def pyIsSpace (c : Char) : Bool :=
  c = ' ' || c = '\t' || c = '\n' || c = '\x0d' || c = '\x0b' || c = '\x0c'

/-- Python `str.lower()` on one character, for ASCII and Cyrillic. -/
def pyLowerChar (c : Char) : Char :=
  if 'A' ≤ c ∧ c ≤ 'Z' then Char.ofNat (c.toNat + 32)
  else if 'А' ≤ c ∧ c ≤ 'Я' then Char.ofNat (c.toNat + 32)
  else if c = 'Ё' then 'ё'
  else c

/-- Python `str.upper()` on one character, for ASCII and Cyrillic. -/
def pyUpperChar (c : Char) : Char :=
  if 'a' ≤ c ∧ c ≤ 'z' then Char.ofNat (c.toNat - 32)
  else if 'а' ≤ c ∧ c ≤ 'я' then Char.ofNat (c.toNat - 32)
  else if c = 'ё' then 'Ё'
  else c

/-- Python `str.lower()`. -/
def pyLower (s : String) : String := String.mk (s.toList.map pyLowerChar)

/-- Python `str.upper()`. -/
def pyUpper (s : String) : String := String.mk (s.toList.map pyUpperChar)

/-- `isPre p l`: `p` is a leading segment of `l` (anchored regex literal). -/
def isPre : List Char → List Char → Bool
  | [], _ => true
  | _ :: _, [] => false
  | a :: p, c :: l => a = c && isPre p l

/-- `hasSub p l`: `p` occurs contiguously somewhere in `l`
(Python `p in l` on strings). -/
def hasSub : List Char → List Char → Bool
  | p, [] => isPre p []
  | p, l@(_ :: tl) => isPre p l || hasSub p tl

/-- Python `needle in hay` for strings. -/
def strContains (hay needle : String) : Bool := hasSub needle.toList hay.toList

/-- Python `s.startswith(p)`. -/
def pyStartsWith (s p : String) : Bool := isPre p.toList s.toList

/-- Strip leading whitespace (`str.lstrip()`). -/
def stripLead (l : List Char) : List Char := l.dropWhile pyIsSpace

/-- Strip trailing whitespace (`str.rstrip()`). -/
def stripTrail (l : List Char) : List Char := (l.reverse.dropWhile pyIsSpace).reverse

/-- Python `str.strip()` on a character list. -/
def stripList (l : List Char) : List Char := stripTrail (stripLead l)

/-- Python `str.strip()`. -/
def pyStrip (s : String) : String := String.mk (stripList s.toList)

/-- Python slicing `s[:n]`. -/
def pyTake (n : Nat) (s : String) : String := String.mk (s.toList.take n)

theorem dropWhile_len_le (p : Char → Bool) :
    ∀ l : List Char, (l.dropWhile p).length ≤ l.length
  | [] => Nat.le_refl _
  | c :: cs => by
    simp only [List.dropWhile]
    split
    · exact Nat.le_succ_of_le (dropWhile_len_le p cs)
    · exact Nat.le_refl _

/-- Worker for whitespace collapsing: `prevSpace` records whether the
previous character was part of a whitespace run already replaced by one
space. -/
def collapseWsAux (prevSpace : Bool) : List Char → List Char
  | [] => []
  | c :: cs =>
    if pyIsSpace c then
      if prevSpace then collapseWsAux true cs
      else ' ' :: collapseWsAux true cs
    else c :: collapseWsAux false cs

/-- `re.sub(r'\s+', ' ', ·)`: collapse each maximal whitespace run into
one space. -/
def collapseWs (l : List Char) : List Char := collapseWsAux false l

/-- `_clean_text` (listorg parser): collapse whitespace runs, then strip. -/
def cleanText (s : String) : String := String.mk (stripList (collapseWs s.toList))

/-- Digits of a numeral string as a number (`int(s)` for an all-digit `s`). -/
def digitsToNat (l : List Char) : Nat :=
  l.foldl (fun acc c => 10 * acc + (c.toNat - '0'.toNat)) 0

/-- Python `str.isdigit()`, restricted to ASCII decimal digits:
true iff the string is nonempty and all characters are digits. -/
def pyIsdigit (s : String) : Bool := !s.isEmpty && s.toList.all Char.isDigit

/-- Truthiness of an optional string (`if s:` for `s = None`/`str`). -/
def pyTruthyStr : Option String → Bool
  | none => false
  | some s => !s.isEmpty

/-- Truthiness of an optional integer (`if n:` for `n = None`/`int`). -/
def pyTruthyInt : Option Int → Bool
  | none => false
  | some n => n ≠ 0

/-- `str(x)` for an optional string field of a record dict whose keys are
always present: `None` prints as `"None"`. -/
def pyStrOpt : Option String → String
  | none => "None"
  | some s => s

/-! ## Canonical record

The union of the dictionary keys produced by the four source adapters
(`list_org`, `rusprofile`, `fns_open_data`, `ruward`).  Absent keys and
`None` values are both `none` (see the conventions above). -/

structure Company where
  inn : Option String := none
  name : Option String := none
  revenue : Option Int := none
  revenue_year : Option Int := none
  segment_tag : Option String := none
  okved_main : Option String := none
  employees : Option Int := none
  site : Option String := none
  description : Option String := none
  region : Option String := none
  address : Option String := none
  contacts : Option String := none
  rating_ref : Option String := none
  source : Option String := none
  category : Option String := none
  rating_position : Option Int := none
  rating_category : Option String := none
  url : Option String := none
deriving DecidableEq

/-- A record with every field absent. -/
def emptyCompany : Company := {}

/-! ## Identifier validation (claim C4)

The tax-identifier check appears inline in the source:
`len(inn_str) in [10, 12] and inn_str.isdigit()` in
`FnsOpenDataParser._is_relevant_company` / `_is_russian_company`, and
`(len(inn_str) == 10 and inn_str.isdigit()) or (len(inn_str) == 12 and
inn_str.isdigit())` in `BaseParser._is_russian_company`. -/

/-- `len(s) in [10, 12] and s.isdigit()` (fns variant of the inline
identifier check). -/
def isValidIdentifier (s : String) : Bool :=
  (s.length = 10 || s.length = 12) && pyIsdigit s

/-- `(len(s) == 10 and s.isdigit()) or (len(s) == 12 and s.isdigit())`
(base-parser variant of the inline identifier check). -/
def baseIdentifierCheck (s : String) : Bool :=
  (s.length = 10 && pyIsdigit s) || (s.length = 12 && pyIsdigit s)

/-! ## Nationality checks (claim C8) -/

/-- Russian-location indicator vocabulary of `BaseParser._is_russian_company`. -/
def baseRussianIndicators : List String :=
  ["россия", "рф", "москва", "санкт-петербург", "область", "край", "республика"]

/-- `BaseParser._is_russian_company`. -/
def baseIsRussianCompany (c : Company) : Bool :=
  if pyTruthyStr c.inn && baseIdentifierCheck (c.inn.getD "") then true
  else
    let region := pyLower (pyStrOpt c.region)
    if baseRussianIndicators.any (fun k => strContains region k) then true
    else true

/-- Russian-location indicator vocabulary of
`FnsOpenDataParser._is_russian_company`. -/
def fnsRussianIndicators : List String :=
  ["россия", "рф", "ru", "russia", "российская федерация",
   "москва", "санкт-петербург", "спб", "moscow", "st. petersburg",
   "область", "край", "республика", "респ.", "автономный округ", "ао",
   "г. ", "город ", "ул.", "проспект", "бульвар", "проезд"]

/-- `FnsOpenDataParser._is_russian_company`. -/
def fnsIsRussianCompany (c : Company) : Bool :=
  if pyTruthyStr c.inn && isValidIdentifier (c.inn.getD "") then true
  else
    let region := pyLower (pyStrOpt c.region)
    let address := pyLower (pyStrOpt c.address)
    let textToCheck := region ++ " " ++ address
    if fnsRussianIndicators.any (fun k => strContains textToCheck k) then true
    else true

/-- Russian-location indicator vocabulary of
`ListOrgParser._is_russian_company` (listorg_parser.py). -/
def listOrgRussianIndicators : List String :=
  ["россия", "рф", "ru", "russia",
   "москва", "санкт-петербург", "спб", "moscow", "st. petersburg",
   "область", "край", "республика", "респ.",
   "г. ", "город ", "ул.", "проспект", "бульвар"]

/-- `ListOrgParser._is_russian_company` (listorg_parser.py). -/
def listOrgIsRussianCompany (c : Company) : Bool :=
  if pyTruthyStr c.inn && baseIdentifierCheck (c.inn.getD "") then true
  else
    let region := pyLower (pyStrOpt c.region)
    if listOrgRussianIndicators.any (fun k => strContains region k) then true
    else if pyTruthyStr c.okved_main then true
    else
      let contacts := pyLower (pyStrOpt c.contacts)
      if strContains contacts "+7" || strContains contacts "8(" then true
      else true

/-! ## Theorems for claims C4 and C8 -/

/-- **C4.** The identifier validation used on tax identifiers returns true
iff the input is non-empty, consists only of decimal digits, and has
length exactly 10 or exactly 12; both inline variants of the check
(fns `len in [10,12] and isdigit`, base `(len==10 and isdigit) or
(len==12 and isdigit)`) agree.  The embedded function is total, so no
input raises. -/
theorem identifier_validator_correct (s : String) :
    (isValidIdentifier s = true ↔
      s ≠ "" ∧ (∀ ch ∈ s.toList, ch.isDigit) ∧ (s.length = 10 ∨ s.length = 12)) ∧
    baseIdentifierCheck s = isValidIdentifier s := by
  constructor
  · constructor
    · intro h
      simp only [isValidIdentifier, pyIsdigit, Bool.and_eq_true, Bool.or_eq_true,
        decide_eq_true_eq, Bool.not_eq_true', List.all_eq_true] at h
      obtain ⟨hlen, hne, hdig⟩ := h
      refine ⟨?_, fun ch hch => hdig ch hch, hlen⟩
      intro hs
      rw [hs] at hne
      exact absurd hne (by decide)
    · intro ⟨hne, hdig, hlen⟩
      simp only [isValidIdentifier, pyIsdigit, Bool.and_eq_true, Bool.or_eq_true,
        decide_eq_true_eq, Bool.not_eq_true', List.all_eq_true]
      refine ⟨hlen, ?_, fun ch hch => hdig ch hch⟩
      cases hs : s.isEmpty
      · rfl
      · exact absurd ((String.isEmpty_iff s).mp hs) hne
  · unfold baseIdentifierCheck isValidIdentifier
    cases decide (s.length = 10) <;> cases decide (s.length = 12) <;>
      cases pyIsdigit s <;> rfl

/-- Witness for C4: evaluation of the validator at the concrete identifier
`"7701234567"`. -/
theorem identifier_validator_correct_witness :
    isValidIdentifier "7701234567" = true :=
  (identifier_validator_correct "7701234567").1.mpr
    ⟨by decide, by decide, by decide⟩

/-- **C8.** The nationality sub-check of the Relevance Filter returns true
for every input record whatsoever, in all three implementations
(`BaseParser`, `FnsOpenDataParser`, `ListOrgParser`): each one falls back
to `true` when neither the tax id validates nor any national indicator
appears, so it never causes a rejection. -/
theorem nationality_check_always_true (c : Company) :
    baseIsRussianCompany c = true ∧ fnsIsRussianCompany c = true ∧
      listOrgIsRussianCompany c = true := by
  refine ⟨?_, ?_, ?_⟩
  · simp only [baseIsRussianCompany, ite_self]
  · simp only [fnsIsRussianCompany, ite_self]
  · simp only [listOrgIsRussianCompany, ite_self]

/-! ## Aggregator merge and deduplication (`ParserManager` in main.py)

`_get_company_id` builds string keys `f"inn_{inn}"`,
`f"ruward_{md5(f'{name}_{site}')[:10]}"`, and `merge_results` falls back
to `md5(str(company))[:10]`.  The three key shapes can never collide with
each other as strings (distinct alphabets/heads), so they are modelled by
an inductive key type carrying exactly the data Python hashes; md5
collisions between distinct hash inputs are not modelled. -/

inductive CompanyId where
  /-- `f"inn_{inn}"`. -/
  | innId : String → CompanyId
  /-- `f"ruward_{hashlib.md5(f'{name}_{site}'.encode()).hexdigest()[:10]}"`,
  keyed on the exact string `f"{name}_{site}"` that Python hashes. -/
  | ruwardHash : String → CompanyId
  /-- `hashlib.md5(str(company).encode()).hexdigest()[:10]`, keyed on the
  full record that Python stringifies. -/
  | fallbackHash : Company → CompanyId
deriving DecidableEq

/-- `ParserManager._get_company_id`. -/
def getCompanyId (c : Company) (parserName : String) : Option CompanyId :=
  if pyTruthyStr c.inn then some (CompanyId.innId (c.inn.getD ""))
  else if parserName = "ruward" then
    let name := c.name.getD ""
    let site := c.site.getD ""
    if !name.isEmpty && !site.isEmpty then
      some (CompanyId.ruwardHash (name ++ "_" ++ site))
    else none
  else none

/-- The inner per-company loop of `ParserManager.merge_results`:
`merged` accumulates output order, `processed` is the seen-id set. -/
def mergeInto (parserName : String) :
    List Company → List Company → List CompanyId → List Company × List CompanyId
  | [], merged, processed => (merged, processed)
  | c :: rest, merged, processed =>
    match getCompanyId c parserName with
    | some cid =>
      if cid ∈ processed then mergeInto parserName rest merged processed
      else mergeInto parserName rest (merged ++ [c]) (cid :: processed)
    | none =>
      let uid := CompanyId.fallbackHash c
      if uid ∈ processed then mergeInto parserName rest merged processed
      else mergeInto parserName rest (merged ++ [c]) (uid :: processed)

/-- The outer per-source loop of `ParserManager.merge_results` over
`all_results.items()` (insertion order). -/
def mergeAll :
    List (String × List Company) → List Company → List CompanyId →
      List Company × List CompanyId
  | [], merged, processed => (merged, processed)
  | (p, cs) :: rest, merged, processed =>
    let st := mergeInto p cs merged processed
    mergeAll rest st.1 st.2

/-- `ParserManager.merge_results`. -/
def mergeResults (allResults : List (String × List Company)) : List Company :=
  (mergeAll allResults [] []).1

/-- The effective deduplication key of one record inside `merge_results`:
the `_get_company_id` key when present, else the full-record fallback. -/
def effId (parserName : String) (c : Company) : CompanyId :=
  (getCompanyId c parserName).getD (CompanyId.fallbackHash c)

theorem mergeInto_cons (p : String) (c : Company) (cs : List Company)
    (m : List Company) (s : List CompanyId) :
    mergeInto p (c :: cs) m s =
      if effId p c ∈ s then mergeInto p cs m s
      else mergeInto p cs (m ++ [c]) (effId p c :: s) := by
  unfold effId
  cases h : getCompanyId c p
  · simp only [mergeInto, h, Option.getD_none]
  · simp only [mergeInto, h, Option.getD_some]

theorem mergeInto_processed_mono (p : String) :
    ∀ (cs : List Company) (m : List Company) (s : List CompanyId),
      s ⊆ (mergeInto p cs m s).2
  | [], _, _ => fun _ h => h
  | c :: cs, m, s => by
    rw [mergeInto_cons]
    split
    · exact mergeInto_processed_mono p cs m s
    · exact fun x hx =>
        mergeInto_processed_mono p cs (m ++ [c]) (effId p c :: s)
          (List.mem_cons_of_mem _ hx)

theorem mergeInto_records_id (p : String) :
    ∀ (cs : List Company) (m : List Company) (s : List CompanyId),
      ∀ c ∈ cs, effId p c ∈ (mergeInto p cs m s).2
  | [], _, _ => by intro c hc; cases hc
  | c :: cs, m, s => by
    intro d hd
    rw [mergeInto_cons]
    rcases List.mem_cons.mp hd with hd | hd
    · subst hd
      split
      · next hmem => exact mergeInto_processed_mono p cs m s hmem
      · exact mergeInto_processed_mono p cs (m ++ [d]) (effId p d :: s)
          (List.mem_cons_self _ _)
    · split
      · exact mergeInto_records_id p cs m s d hd
      · exact mergeInto_records_id p cs (m ++ [c]) (effId p c :: s) d hd

theorem mergeInto_all_seen (p : String) :
    ∀ (cs : List Company) (m : List Company) (s : List CompanyId),
      (∀ c ∈ cs, effId p c ∈ s) → mergeInto p cs m s = (m, s)
  | [], _, _ => fun _ => rfl
  | c :: cs, m, s => by
    intro h
    rw [mergeInto_cons, if_pos (h c (List.mem_cons_self _ _))]
    exact mergeInto_all_seen p cs m s (fun d hd => h d (List.mem_cons_of_mem _ hd))

/-- **C3.** Merge deduplication is idempotent: for every per-source result
list `L`, merging `L` together with a second copy of `L` yields exactly
the output of merging `L` alone — the second copy contributes zero new
records, for every record shape (with tax id, ratings-source name+site,
or full-record fallback identity). -/
theorem merge_dedup_idempotent (p : String) (L : List Company) :
    mergeResults [(p, L), (p, L)] = mergeResults [(p, L)] ∧
      (mergeResults [(p, L), (p, L)]).length = (mergeResults [(p, L)]).length := by
  have key : mergeResults [(p, L), (p, L)] = mergeResults [(p, L)] := by
    have h2 : mergeInto p L (mergeInto p L [] []).1 (mergeInto p L [] []).2 =
        ((mergeInto p L [] []).1, (mergeInto p L [] []).2) :=
      mergeInto_all_seen p L _ _ (fun c hc => mergeInto_records_id p L [] [] c hc)
    unfold mergeResults
    simp only [mergeAll, h2]
  exact ⟨key, by rw [key]⟩

theorem isEmpty_false_of_ne (s : String) (h : s ≠ "") : s.isEmpty = false := by
  cases hs : s.isEmpty
  · rfl
  · exact absurd ((String.isEmpty_iff s).mp hs) h

theorem effId_inn (c : Company) (p : String) (i : String)
    (hi : c.inn = some i) (hne : i ≠ "") : effId p c = CompanyId.innId i := by
  unfold effId getCompanyId
  rw [if_pos (by simp [pyTruthyStr, hi, isEmpty_false_of_ne i hne])]
  simp [hi]

theorem getCompanyId_ruward (c : Company) (n s : String)
    (hinn : pyTruthyStr c.inn = false)
    (hn : c.name = some n) (hne : n ≠ "")
    (hs : c.site = some s) (hse : s ≠ "") :
    getCompanyId c "ruward" = some (CompanyId.ruwardHash (n ++ "_" ++ s)) := by
  unfold getCompanyId
  rw [if_neg (by simp [hinn]), if_pos rfl]
  simp [hn, hs, isEmpty_false_of_ne n hne, isEmpty_false_of_ne s hse]

theorem mergeResults_two_singletons (p₁ p₂ : String) (c₁ c₂ : Company)
    (h : effId p₂ c₂ = effId p₁ c₁) :
    mergeResults [(p₁, [c₁]), (p₂, [c₂])] = [c₁] := by
  have h₁ : mergeInto p₁ [c₁] [] [] = ([c₁], [effId p₁ c₁]) := by
    rw [mergeInto_cons, if_neg (List.not_mem_nil _)]
    simp [mergeInto]
  have h₂ : mergeInto p₂ [c₂] [c₁] [effId p₁ c₁] = ([c₁], [effId p₁ c₁]) := by
    rw [mergeInto_cons, h, if_pos (List.mem_cons_self _ _)]
    simp [mergeInto]
  unfold mergeResults
  simp only [mergeAll, h₁, h₂]

theorem mergeResults_pair_same (p : String) (c₁ c₂ : Company)
    (h : effId p c₂ = effId p c₁) :
    mergeResults [(p, [c₁, c₂])] = [c₁] := by
  have h₁ : mergeInto p [c₁, c₂] [] [] = ([c₁], [effId p c₁]) := by
    rw [mergeInto_cons, if_neg (List.not_mem_nil _), mergeInto_cons, h,
      if_pos (List.mem_cons_self _ _)]
    simp [mergeInto]
  unfold mergeResults
  simp only [mergeAll, h₁]

/-- **C2.** In the Aggregator merge: (1) a record with a truthy tax id gets
the key `inn_<tax_id>`, independent of which source it came from; (2) two
records with the same nonempty tax id from any two sources merge to one
record, first seen wins; (3) a ratings-source (`ruward`) record without
tax id but with nonempty name and site gets the synthetic identity derived
from `name_site`; (4) merging two ratings-source records with identical
name and site (and no tax id) yields exactly one record; (5) any record
without a `_get_company_id` key is deduplicated by its full field set:
merging two copies of any record yields one record. -/
theorem merge_identity_dedup :
    (∀ (c : Company) (p : String), pyTruthyStr c.inn = true →
        getCompanyId c p = some (CompanyId.innId (c.inn.getD ""))) ∧
    (∀ (p₁ p₂ : String) (c₁ c₂ : Company) (i : String), i ≠ "" →
        c₁.inn = some i → c₂.inn = some i →
        mergeResults [(p₁, [c₁]), (p₂, [c₂])] = [c₁]) ∧
    (∀ (c : Company) (n s : String),
        pyTruthyStr c.inn = false → c.name = some n → n ≠ "" →
        c.site = some s → s ≠ "" →
        getCompanyId c "ruward" = some (CompanyId.ruwardHash (n ++ "_" ++ s))) ∧
    (∀ (c₁ c₂ : Company) (n s : String),
        c₁.inn = none → c₂.inn = none →
        c₁.name = some n → n ≠ "" → c₁.site = some s → s ≠ "" →
        c₂.name = some n → c₂.site = some s →
        (mergeResults [("ruward", [c₁, c₂])]).length = 1) ∧
    (∀ (p : String) (c : Company), mergeResults [(p, [c, c])] = [c]) := by
  refine ⟨?_, ?_, ?_, ?_, ?_⟩
  · intro c p h
    unfold getCompanyId
    rw [if_pos h]
  · intro p₁ p₂ c₁ c₂ i hne h₁ h₂
    exact mergeResults_two_singletons p₁ p₂ c₁ c₂
      ((effId_inn c₂ p₂ i h₂ hne).trans (effId_inn c₁ p₁ i h₁ hne).symm)
  · intro c n s hinn hn hne hs hse
    exact getCompanyId_ruward c n s hinn hn hne hs hse
  · intro c₁ c₂ n s hi₁ hi₂ hn₁ hne hs₁ hse hn₂ hs₂
    have e₁ : effId "ruward" c₁ = CompanyId.ruwardHash (n ++ "_" ++ s) := by
      unfold effId
      rw [getCompanyId_ruward c₁ n s (by simp [pyTruthyStr, hi₁]) hn₁ hne hs₁ hse]
      rfl
    have e₂ : effId "ruward" c₂ = CompanyId.ruwardHash (n ++ "_" ++ s) := by
      unfold effId
      rw [getCompanyId_ruward c₂ n s (by simp [pyTruthyStr, hi₂]) hn₂ hne hs₂ hse]
      rfl
    rw [mergeResults_pair_same "ruward" c₁ c₂ (e₂.trans e₁.symm)]
    rfl
  · intro p c
    exact mergeResults_pair_same p c c rfl

/-- First ratings-source record for the C2 witness: no tax id, name
`Acme`, site `http://acme.example`. -/
def acmeFirst : Company :=
  { emptyCompany with
      name := some "Acme", site := some "http://acme.example",
      source := some "ruward", revenue := some 150000000 }

/-- Second ratings-source record for the C2 witness: identical name and
site, different revenue. -/
def acmeSecond : Company :=
  { emptyCompany with
      name := some "Acme", site := some "http://acme.example",
      source := some "ruward", revenue := some 999 }

/-- Witness for C2: merging the two concrete `Acme` ratings records with
identical name+site yields exactly one record. -/
theorem merge_identity_dedup_witness :
    (mergeResults [("ruward", [acmeFirst, acmeSecond])]).length = 1 :=
  merge_identity_dedup.2.2.2.1 acmeFirst acmeSecond "Acme" "http://acme.example"
    rfl rfl rfl (by decide) rfl (by decide) rfl rfl

/-! ## Revenue extraction

The revenue regexes of the source all have the shape
`label [^\d]{0,20} (\d[\d\s]*) \s* suffix?` (parser.py `_extract_revenue`,
listorg_parser.py `_extract_revenue`, the finance-section patterns of
rusprofile_parser.py) or `label .*? (\d[\d\s]*) \s* руб` (the general-text
patterns of rusprofile_parser.py).  With Python `re.search` semantics
(leftmost match, greedy with backtracking) these families are
deterministic:

* `[^\d]{0,20}` must stop exactly at the first digit after the label
  (larger skips would need the digit to be a non-digit, smaller skips put
  a non-digit where `\d` is required), and fails if that digit is more
  than 20 characters away;
* the greedy capture `(\d[\d\s]*)` always takes the whole maximal
  digit/whitespace run, and a literal suffix such as `руб` (which starts
  with a character outside the capture class) can only match immediately
  after that run, so no backtracking of the capture ever succeeds
  differently;
* `.*?` (lazy, `.` excludes newlines) tries each skip from the shortest,
  failing the whole occurrence at the first newline. -/

/-- Attempt the tail `[^\d]{0,20}(\d[\d\s]*)\s*suffix?` right after a
matched label; returns the captured group. -/
def tryAmountAt (suffix : Option String) (after : List Char) : Option (List Char) :=
  let lead := after.takeWhile (fun c => !c.isDigit)
  if lead.length ≤ 20 then
    match after.drop lead.length with
    | [] => none
    | rest@(_ :: _) =>
      let run := rest.takeWhile (fun c => c.isDigit || pyIsSpace c)
      match suffix with
      | none => some run
      | some suf =>
        if isPre suf.toList (rest.drop run.length) then some run else none
  else none

/-- `re.search` for one labeled-amount pattern: first position where the
label matches and the amount tail succeeds. -/
def searchAmount (label : List Char) (suffix : Option String) :
    List Char → Option (List Char)
  | [] => none
  | text@(_ :: tl) =>
    if isPre label text then
      match tryAmountAt suffix (text.drop label.length) with
      | some run => some run
      | none => searchAmount label suffix tl
    else searchAmount label suffix tl

/-- `.*?(\d[\d\s]*)\s*suffix` after a label: lazy scan, blocked by
newlines. -/
def lazyScan (suffix : List Char) : List Char → Option (List Char)
  | [] => none
  | c :: rest =>
    if c = '\n' then none
    else if c.isDigit then
      let run := (c :: rest).takeWhile (fun ch => ch.isDigit || pyIsSpace ch)
      if isPre suffix ((c :: rest).drop run.length) then some run
      else lazyScan suffix rest
    else lazyScan suffix rest

/-- `re.search` for one lazy-dot labeled pattern
`label.*?(\d[\d\s]*)\s*suffix`. -/
def searchLazyAmount (label suffix : List Char) : List Char → Option (List Char)
  | [] => none
  | text@(_ :: tl) =>
    if isPre label text then
      match lazyScan suffix (text.drop label.length) with
      | some run => some run
      | none => searchLazyAmount label suffix tl
    else searchLazyAmount label suffix tl

/-- `match.group(1).replace(' ', '').replace(',', '').strip()` followed by
the `isdigit` test and `int(...)`. -/
def parseAmount (run : List Char) : Option Nat :=
  let cleaned := stripList ((run.filter (fun c => c ≠ ' ')).filter (fun c => c ≠ ','))
  if cleaned ≠ [] ∧ cleaned.all Char.isDigit then some (digitsToNat cleaned)
  else none

/-- Pattern table of `ListOrgParser._extract_revenue` in parser.py. -/
def parserRevenuePatterns : List (String × Option String) :=
  [("выручка", some "руб"), ("выручка", some "₽"), ("прибыль", some "руб"),
   ("доход", some "руб"), ("общая выручка", none), ("выручка за год", none),
   ("от реализации", some "руб")]

/-- The pattern loop of parser.py `_extract_revenue`: first pattern whose
parsed amount lies in the sane bound `[1_000_000, 1_000_000_000_000]`
wins; out-of-bound or unparseable matches fall through to the next
pattern. -/
def revLoopSane : List (String × Option String) → String → Option Nat
  | [], _ => none
  | (label, suf) :: rest, t =>
    match searchAmount label.toList suf t.toList with
    | some run =>
      match parseAmount run with
      | some n =>
        if 1000000 ≤ n ∧ n ≤ 1000000000000 then some n else revLoopSane rest t
      | none => revLoopSane rest t
    | none => revLoopSane rest t

/-- `ListOrgParser._extract_revenue` (parser.py variant, sane bound
1M–1T). -/
def parserExtractRevenue (textLower : String) : Option Nat :=
  revLoopSane parserRevenuePatterns textLower

/-- Pattern table of `ListOrgParser._extract_revenue` in
listorg_parser.py (no `прибыль` pattern). -/
def listOrgRevenuePatterns : List (String × Option String) :=
  [("выручка", some "руб"), ("выручка", some "₽"), ("доход", some "руб"),
   ("общая выручка", none), ("выручка за год", none), ("от реализации", some "руб")]

/-- The pattern loop of listorg_parser.py `_extract_revenue`: first
pattern whose parsed amount is `≥ 200_000_000` wins; smaller or
unparseable matches fall through. -/
def revLoopFloor : List (String × Option String) → String → Option Nat
  | [], _ => none
  | (label, suf) :: rest, t =>
    match searchAmount label.toList suf t.toList with
    | some run =>
      match parseAmount run with
      | some n => if 200000000 ≤ n then some n else revLoopFloor rest t
      | none => revLoopFloor rest t
    | none => revLoopFloor rest t

/-- `ListOrgParser._extract_revenue` (listorg_parser.py variant, 200M
floor enforced inside the extractor). -/
def listOrgExtractRevenue (textLower : String) : Option Nat :=
  revLoopFloor listOrgRevenuePatterns textLower

/-- Finance-section pattern table of
`RusprofileParser._extract_revenue_rusprofile`. -/
def rusprofileFinancePatterns : List (String × Option String) :=
  [("выручка", some "руб"), ("доход", some "руб"), ("общая выручка", none)]

/-- The lazy general-text pattern loop of
`RusprofileParser._extract_revenue_rusprofile`
(`выручка за.*?(\d[\d\s]*)\s*руб`, `выручка составила.*?(\d[\d\s]*)\s*руб`). -/
def revLoopLazy : List String → String → Option Nat
  | [], _ => none
  | label :: rest, t =>
    match searchLazyAmount label.toList "руб".toList t.toList with
    | some run =>
      match parseAmount run with
      | some n => if 200000000 ≤ n then some n else revLoopLazy rest t
      | none => revLoopLazy rest t
    | none => revLoopLazy rest t

/-- `RusprofileParser._extract_revenue_rusprofile`: the finance-section
text (a markup-tree lookup, hence a parameter) is tried first with the
200M floor, then the lazy general-text patterns. -/
def rusprofileExtractRevenue (financeText : Option String) (textLower : String) :
    Option Nat :=
  let fromFinance :=
    match financeText with
    | some ft => revLoopFloor rusprofileFinancePatterns (pyLower ft)
    | none => none
  match fromFinance with
  | some n => some n
  | none => revLoopLazy ["выручка за", "выручка составила"] textLower

/-! ## Relevance filters (claim C1) -/

/-- Keyword vocabulary of `FnsOpenDataParser._is_relevant_profile`
(duplicates kept as in the source). -/
def fnsRelevantKeywords : List String :=
  ["btl", "промо", "ивент", "event", "мерчандайзинг", "мерчендайзинг",
   "бренд-актив", "бренд активац", "промоакц", "живой маркетинг",
   "field marketing", "live marketing", "торговый маркетинг",
   "промоутер", "промо-групп", "активац", "сэмплинг",
   "агентств", "рекламн", "маркетингов",
   "сувенир", "подар", "бизнес-сувенир", "корпоративн", "промопродукц",
   "полиграф", "печат", "тираж", "календар", "брендирован",
   "рекламн", "премиальн", "промо-сувенир",
   "полиграфия", "полиграфическ", "типограф", "печатн",
   "коммуникац", "комм груп", "агентств", "рекламн", "маркетингов",
   "pr", "public relations", "digital", "диджитал", "креативн",
   "медиа", "smm", "контент", "брендинг", "стратеги",
   "полный цикл", "full cycle", "full-service", "комплексн",
   "интегрирован", "360°", "end-to-end", "интегратор"]

/-- Industry-code allow-list of `FnsOpenDataParser._is_relevant_profile`. -/
def fnsRelevantOkveds : List String :=
  ["73.11", "73.12", "18.12", "74.10", "74.20", "90.03", "58.11", "58.19",
   "73.20", "74.30", "82.30"]

/-- `FnsOpenDataParser._is_relevant_profile`. -/
def fnsIsRelevantProfile (c : Company) : Bool :=
  let name := pyLower (pyStrOpt c.name)
  let okved := pyStrOpt c.okved_main
  if fnsRelevantKeywords.any (fun k => strContains name k) then true
  else if fnsRelevantOkveds.any (fun code => pyStartsWith okved code) then true
  else false

/-- `FnsOpenDataParser._is_relevant_company` — the relevance filter of the
tax-data source: tax id present and valid, revenue truthy and
`≥ 200_000_000`, nationality check, profile check. -/
def fnsIsRelevantCompany (c : Company) : Bool :=
  match c.inn with
  | none => false
  | some inn =>
    if inn.isEmpty then false
    else if !isValidIdentifier inn then false
    else match c.revenue with
      | none => false
      | some r =>
        if r = 0 || r < 200000000 then false
        else if !fnsIsRussianCompany c then false
        else fnsIsRelevantProfile c

/-- Keyword vocabulary of `RuwardParser._is_relevant_company`. -/
def ruwardRelevantKeywords : List String :=
  ["агентство", "agency", "digital", "pr", "btl", "event",
   "медиа", "media", "креатив", "creative", "маркетинг", "marketing",
   "реклама", "advertising", "коммуникаци", "communication"]

/-- `RuwardParser._is_relevant_company` — the relevance filter of the
ratings source: nonempty name, revenue truthy and `≥ 100_000_000`,
relevant category/segment/description keyword, and an `http`-site. -/
def ruwardIsRelevantCompany (c : Company) : Bool :=
  match c.name with
  | none => false
  | some name =>
    if name.isEmpty then false
    else match c.revenue with
      | none => false
      | some r =>
        if r = 0 || r < 100000000 then false
        else
          let category := pyLower (c.category.getD "")
          let segment := pyUpper (c.segment_tag.getD "")
          let relevantField :=
            ruwardRelevantKeywords.any (fun k => strContains (pyLower category) k) ||
              ruwardRelevantKeywords.any (fun k => strContains segment (pyUpper k))
          let relevantField :=
            if !relevantField then
              ruwardRelevantKeywords.any
                (fun k => strContains (pyLower (c.description.getD "")) k)
            else relevantField
          if !relevantField then false
          else match c.site with
            | none => false
            | some site =>
              if site.isEmpty then false
              else pyStartsWith site "http"

theorem revLoopFloor_ge (t : String) :
    ∀ (ps : List (String × Option String)) (n : Nat),
      revLoopFloor ps t = some n → 200000000 ≤ n
  | [], n => by intro h; exact absurd h (by simp [revLoopFloor])
  | (label, suf) :: rest, n => by
    intro h
    unfold revLoopFloor at h
    split at h
    · split at h
      · split at h
        · next hge => cases h; exact hge
        · exact revLoopFloor_ge t rest n h
      · exact revLoopFloor_ge t rest n h
    · exact revLoopFloor_ge t rest n h

theorem revLoopSane_bounds (t : String) :
    ∀ (ps : List (String × Option String)) (n : Nat),
      revLoopSane ps t = some n → 1000000 ≤ n ∧ n ≤ 1000000000000
  | [], n => by intro h; exact absurd h (by simp [revLoopSane])
  | (label, suf) :: rest, n => by
    intro h
    unfold revLoopSane at h
    split at h
    · split at h
      · split at h
        · next hge => cases h; exact hge
        · exact revLoopSane_bounds t rest n h
      · exact revLoopSane_bounds t rest n h
    · exact revLoopSane_bounds t rest n h

theorem revLoopLazy_ge (t : String) :
    ∀ (ps : List String) (n : Nat), revLoopLazy ps t = some n → 200000000 ≤ n
  | [], n => by intro h; exact absurd h (by simp [revLoopLazy])
  | label :: rest, n => by
    intro h
    unfold revLoopLazy at h
    split at h
    · split at h
      · split at h
        · next hge => cases h; exact hge
        · exact revLoopLazy_ge t rest n h
      · exact revLoopLazy_ge t rest n h
    · exact revLoopLazy_ge t rest n h

/-- Directory/tax-source record with revenue 150,000,000 and otherwise
acceptable fields (valid 10-digit tax id, relevant name) for the C1
scenario. -/
def fnsRec150 : Company :=
  { emptyCompany with
      inn := some "7701234567", name := some "btl агентство",
      revenue := some 150000000 }

/-- Ratings-source record with revenue 150,000,000 passing every other
sub-check of the ratings relevance filter (name, relevant category,
`http` site). -/
def ruwardRec150 : Company :=
  { emptyCompany with
      name := some "Acme", category := some "digital agency",
      revenue := some 150000000, site := some "http://acme.example" }

/-- Accepted tax-source record (revenue 250,000,000) for the C1 witness. -/
def fnsAccepted : Company :=
  { emptyCompany with
      inn := some "7701234567", name := some "btl агентство",
      revenue := some 250000000 }

/-- **C1.** Every record accepted by a source's relevance filter has a
present revenue at or above the source's configured floor: 200,000,000
for the directory and tax sources (the fns filter, the list_org revenue
gate inside its extractor, the rusprofile revenue gate inside its
extractor) and 100,000,000 for the ratings source (ruward); in
particular a record with revenue 150,000,000 is rejected by the tax
source's filter (and yields nothing from the list_org revenue gate),
while the same value from the ratings source — with all other sub-checks
passing — is accepted. -/
theorem relevance_filter_revenue_floor :
    (∀ c : Company, fnsIsRelevantCompany c = true →
        ∃ r, c.revenue = some r ∧ (200000000 : Int) ≤ r) ∧
    (∀ c : Company, ruwardIsRelevantCompany c = true →
        ∃ r, c.revenue = some r ∧ (100000000 : Int) ≤ r) ∧
    (∀ (t : String) (n : Nat), listOrgExtractRevenue t = some n → 200000000 ≤ n) ∧
    (∀ (financeText : Option String) (t : String) (n : Nat),
        rusprofileExtractRevenue financeText t = some n → 200000000 ≤ n) ∧
    fnsIsRelevantCompany fnsRec150 = false ∧
    listOrgExtractRevenue "выручка 150000000 руб" = none ∧
    ruwardIsRelevantCompany ruwardRec150 = true := by
  refine ⟨?_, ?_, ?_, ?_, by decide, by decide, by decide⟩
  · intro c h
    cases hinn : c.inn with
    | none => simp only [fnsIsRelevantCompany, hinn] at h; exact absurd h (by simp)
    | some inn =>
      simp only [fnsIsRelevantCompany, hinn] at h
      cases hr : c.revenue with
      | none => simp only [hr] at h; split at h <;> simp_all
      | some r =>
        simp only [hr] at h
        refine ⟨r, rfl, ?_⟩
        split at h
        · exact absurd h (by simp)
        · split at h
          · exact absurd h (by simp)
          · split at h
            · next hcond =>
              simp only [Bool.or_eq_true, decide_eq_true_eq] at hcond
              exact absurd h (by simp)
            · next hcond =>
              simp only [Bool.or_eq_true, decide_eq_true_eq, not_or] at hcond
              omega
  · intro c h
    cases hn : c.name with
    | none => simp only [ruwardIsRelevantCompany, hn] at h; exact absurd h (by simp)
    | some name =>
      simp only [ruwardIsRelevantCompany, hn] at h
      cases hr : c.revenue with
      | none => simp only [hr] at h; split at h <;> simp_all
      | some r =>
        simp only [hr] at h
        refine ⟨r, rfl, ?_⟩
        split at h
        · exact absurd h (by simp)
        · split at h
          · next hcond =>
            simp only [Bool.or_eq_true, decide_eq_true_eq] at hcond
            exact absurd h (by simp)
          · next hcond =>
            simp only [Bool.or_eq_true, decide_eq_true_eq, not_or] at hcond
            omega
  · intro t n h
    exact revLoopFloor_ge t listOrgRevenuePatterns n h
  · intro financeText t n h
    unfold rusprofileExtractRevenue at h
    cases financeText with
    | none =>
      simp only at h
      exact revLoopLazy_ge t _ n h
    | some ft =>
      simp only at h
      cases hf : revLoopFloor rusprofileFinancePatterns (pyLower ft) with
      | none => rw [hf] at h; exact revLoopLazy_ge t _ n h
      | some m => rw [hf] at h; cases h; exact revLoopFloor_ge (pyLower ft) _ n hf

/-- Witness for C1: the floor bounds evaluated at concrete accepted
inputs for each of the four sources. -/
theorem relevance_filter_revenue_floor_witness :
    (∃ r, fnsAccepted.revenue = some r ∧ (200000000 : Int) ≤ r) ∧
    (∃ r, ruwardRec150.revenue = some r ∧ (100000000 : Int) ≤ r) ∧
    (200000000 : Nat) ≤ 250000000 ∧ (200000000 : Nat) ≤ 300000000 :=
  ⟨relevance_filter_revenue_floor.1 fnsAccepted (by decide),
   relevance_filter_revenue_floor.2.1 ruwardRec150 (by decide),
   relevance_filter_revenue_floor.2.2.1 "выручка 250000000 руб" 250000000 (by decide),
   relevance_filter_revenue_floor.2.2.2.1 none
     "выручка за 2023 год: 300000000 руб" 300000000 (by decide)⟩

/-- Counterexample for C6: the claim says a parsed value between
1,000,000 and 199,999,999 is returned by the directory-source revenue
extractor, the 200M floor being the Relevance Filter's business; but the
extractor variants in listorg_parser.py (and rusprofile_parser.py)
enforce the 200M floor themselves and return nothing for a parsed
150,000,000 — only the parser.py variant returns it. -/
theorem revenue_extractor_counterexample :
    listOrgExtractRevenue "выручка 150000000 руб" = none ∧
    (1000000 : Nat) ≤ 150000000 ∧ (150000000 : Nat) ≤ 199999999 ∧
    parserExtractRevenue "выручка 150000000 руб" = some 150000000 := by
  refine ⟨by decide, by decide, by decide, by decide⟩

/-- **C6 (amended).** The 1M–1T sane bound belongs to the parser.py
variant of the directory-source revenue extractor only: that variant
returns every first-pattern value inside the bound (150,000,000
included) and nothing outside it, while the listorg_parser.py and
rusprofile_parser.py variants enforce the 200,000,000 floor inside the
extractor — they return nothing below 200M and have no upper sane bound
(the listorg variant returns 2,000,000,000,000, which the parser.py
variant rejects). -/
theorem revenue_extractor_sane_bound :
    (∀ (t : String) (n : Nat), parserExtractRevenue t = some n →
        1000000 ≤ n ∧ n ≤ 1000000000000) ∧
    (∀ (t : String) (n : Nat), listOrgExtractRevenue t = some n →
        200000000 ≤ n) ∧
    (∀ (financeText : Option String) (t : String) (n : Nat),
        rusprofileExtractRevenue financeText t = some n → 200000000 ≤ n) ∧
    parserExtractRevenue "выручка 150000000 руб" = some 150000000 ∧
    parserExtractRevenue "выручка 100 руб" = none ∧
    parserExtractRevenue "выручка 2000000000000 руб" = none ∧
    listOrgExtractRevenue "выручка 2000000000000 руб" = some 2000000000000 := by
  refine ⟨?_, ?_, ?_, by decide, by decide, by decide, by decide⟩
  · intro t n h
    exact revLoopSane_bounds t parserRevenuePatterns n h
  · intro t n h
    exact revLoopFloor_ge t listOrgRevenuePatterns n h
  · intro financeText t n h
    unfold rusprofileExtractRevenue at h
    cases financeText with
    | none =>
      simp only at h
      exact revLoopLazy_ge t _ n h
    | some ft =>
      simp only at h
      cases hf : revLoopFloor rusprofileFinancePatterns (pyLower ft) with
      | none => rw [hf] at h; exact revLoopLazy_ge t _ n h
      | some m => rw [hf] at h; cases h; exact revLoopFloor_ge (pyLower ft) _ n hf

/-- Witness for the amended C6: the bounds evaluated at concrete
extractions of the parser.py and listorg_parser.py variants. -/
theorem revenue_extractor_sane_bound_witness :
    ((1000000 : Nat) ≤ 150000000 ∧ (150000000 : Nat) ≤ 1000000000000) ∧
      (200000000 : Nat) ≤ 2000000000000 :=
  ⟨revenue_extractor_sane_bound.1 "выручка 150000000 руб" 150000000 (by decide),
   revenue_extractor_sane_bound.2.1 "выручка 2000000000000 руб" 2000000000000
     (by decide)⟩

/-! ## Segment classifiers (claim C5) -/

/-- BTL keyword cluster of `_determine_segment` in listorg_parser.py
(also fns_parser.py and rusprofile_parser.py). -/
def clusterBtlKeywords : List String :=
  ["btl", "промо", "ивент", "event", "мерчандайзинг", "бренд-актив"]

/-- SOUVENIR keyword cluster of `_determine_segment` in listorg_parser.py. -/
def clusterSouvenirKeywords : List String :=
  ["сувенир", "подар", "полиграф", "печат", "брендирован"]

/-- FULL_CYCLE keyword cluster of `_determine_segment` in listorg_parser.py. -/
def clusterFullCycleKeywords : List String :=
  ["полный цикл", "full cycle", "комплексн", "интегрирован"]

/-- COMM_GROUP keyword cluster of `_determine_segment` in listorg_parser.py. -/
def clusterCommKeywords : List String :=
  ["коммуникац", "комм груп", "агентств", "рекламн", "маркетингов", "pr"]

/-- The name+description text that `_determine_segment` in
listorg_parser.py scans (`f"{name} {desc}"`, both lowered, `None`
printing as `"None"`). -/
def listOrgSegText (c : Company) : String :=
  pyLower (pyStrOpt c.name) ++ " " ++ pyLower (pyStrOpt c.description)

/-- `ListOrgParser._determine_segment` (listorg_parser.py): four keyword
clusters with industry-code alternatives, pipe-joined, `OTHER` when
empty — note: no generic advertising/marketing last resort. -/
def listOrgDetermineSegment (c : Company) : String :=
  let text := listOrgSegText c
  let okved := pyStrOpt c.okved_main
  let segments : List String :=
    (if clusterBtlKeywords.any (fun k => strContains text k) ||
        pyStartsWith okved "73.11" then ["BTL"] else []) ++
    (if clusterSouvenirKeywords.any (fun k => strContains text k) ||
        pyStartsWith okved "18.12" then ["SOUVENIR"] else []) ++
    (if clusterFullCycleKeywords.any (fun k => strContains text k)
     then ["FULL_CYCLE"] else []) ++
    (if clusterCommKeywords.any (fun k => strContains text k) ||
        pyStartsWith okved "73.12" then ["COMM_GROUP"] else [])
  if segments.isEmpty then "OTHER" else String.intercalate "|" segments

/-- BTL keyword cluster of `_determine_segment` in parser.py. -/
def parserBtlKeywords : List String :=
  ["btl", "промо", "ивент", "мерчандайзинг", "бренд-актив",
   "бренд активац", "event", "промоакц", "промо-акц", "live marketing",
   "field marketing", "торговый маркетинг"]

/-- SOUVENIR keyword cluster of `_determine_segment` in parser.py. -/
def parserSouvenirKeywords : List String :=
  ["сувенир", "промопродукц", "подар", "рекламн", "печат",
   "полиграф", "тираж", "календар", "брендирован", "корпоративн",
   "промо-сувенир", "бизнес-сувенир"]

/-- FULL_CYCLE keyword cluster of `_determine_segment` in parser.py. -/
def parserFullCycleKeywords : List String :=
  ["полный цикл", "full cycle", "комплексн", "интегрирован",
   "full-service", "fullservice", "интегратор", "комплексные решения",
   "360°", "end-to-end"]

/-- COMM_GROUP keyword cluster of `_determine_segment` in parser.py. -/
def parserCommKeywords : List String :=
  ["коммуникаци", "комм груп", "агентств", "рекламн", "маркетингов",
   "pr", "public relations", "digital", "диджитал", "креативн",
   "медиа", "smm", "социальные сети", "контент-маркетинг"]

/-- Industry-code prefix table of `_determine_segment` in parser.py, in
dict insertion order. -/
def parserOkvedCodes : List (String × String) :=
  [("73.11", "BTL"), ("73.12", "COMM_GROUP"), ("18.12", "SOUVENIR"),
   ("74.20", "FULL_CYCLE"), ("90.03", "BTL"), ("74.10", "COMM_GROUP"),
   ("74.30", "BTL"), ("58.11", "SOUVENIR"), ("58.19", "SOUVENIR")]

/-- The name+description+site text that `_determine_segment` in parser.py
scans. -/
def parserSegText (c : Company) : String :=
  pyLower (pyStrOpt c.name) ++ " " ++ pyLower (pyStrOpt c.description) ++ " " ++
    pyLower (pyStrOpt c.site)

/-- `ListOrgParser._determine_segment` (parser.py): four keyword clusters,
then the industry-code table (no duplicate labels), then the generic
advertising/marketing last resort, then `['OTHER']`. -/
def parserDetermineSegment (c : Company) : List String :=
  let okved := pyStrOpt c.okved_main
  let text := parserSegText c
  let segments : List String :=
    (if parserBtlKeywords.any (fun k => strContains text k) then ["BTL"] else []) ++
    (if parserSouvenirKeywords.any (fun k => strContains text k)
     then ["SOUVENIR"] else []) ++
    (if parserFullCycleKeywords.any (fun k => strContains text k)
     then ["FULL_CYCLE"] else []) ++
    (if parserCommKeywords.any (fun k => strContains text k)
     then ["COMM_GROUP"] else [])
  let segments := parserOkvedCodes.foldl
    (fun segs cs =>
      if pyStartsWith okved cs.1 && !(segs.contains cs.2) then segs ++ [cs.2]
      else segs) segments
  let segments :=
    if segments.isEmpty then
      if strContains text "реклам" || strContains text "маркетинг"
      then ["COMM_GROUP"] else []
    else segments
  if segments.isEmpty then ["OTHER"] else segments

theorem okved_foldl_no_match (okved : String) :
    ∀ (codes : List (String × String)) (segs : List String),
      codes.all (fun p => !pyStartsWith okved p.1) = true →
      codes.foldl
        (fun segs cs =>
          if pyStartsWith okved cs.1 && !(segs.contains cs.2) then segs ++ [cs.2]
          else segs) segs = segs
  | [], _ => fun _ => rfl
  | (code, seg) :: rest, segs => by
    intro h
    simp only [List.all_cons, Bool.and_eq_true, Bool.not_eq_true'] at h
    simp only [List.foldl_cons, h.1, Bool.false_and, Bool.false_eq_true, if_false]
    exact okved_foldl_no_match okved rest segs
      (by simp only [List.all_eq_true] at h ⊢; exact h.2)

theorem final_list_nonempty (l : List String) :
    (if l.isEmpty then ["OTHER"] else l) ≠ [] := by
  cases l <;> simp

theorem listorg_join_nonempty (b1 b2 b3 b4 : Bool) :
    (let segments : List String :=
      (if b1 then ["BTL"] else []) ++ (if b2 then ["SOUVENIR"] else []) ++
      (if b3 then ["FULL_CYCLE"] else []) ++ (if b4 then ["COMM_GROUP"] else []);
     if segments.isEmpty then "OTHER" else String.intercalate "|" segments) ≠ "" := by
  cases b1 <;> cases b2 <;> cases b3 <;> cases b4 <;> decide

/-- Counterexample for C5: the record named `реклама` matches zero
keyword clusters and zero industry-code tests, and its text contains the
generic advertising stem `реклам`, yet the listorg_parser.py classifier
returns `OTHER`, not `COMM_GROUP` — only the parser.py variant has the
generic last resort. -/
theorem segment_classifier_counterexample :
    listOrgDetermineSegment
        { emptyCompany with name := some "реклама" } = "OTHER" ∧
    listOrgDetermineSegment
        { emptyCompany with name := some "реклама" } ≠ "COMM_GROUP" ∧
    strContains (listOrgSegText { emptyCompany with name := some "реклама" })
        "реклам" = true ∧
    (clusterBtlKeywords.any fun k =>
        strContains (listOrgSegText { emptyCompany with name := some "реклама" }) k)
      = false ∧
    (clusterSouvenirKeywords.any fun k =>
        strContains (listOrgSegText { emptyCompany with name := some "реклама" }) k)
      = false ∧
    (clusterFullCycleKeywords.any fun k =>
        strContains (listOrgSegText { emptyCompany with name := some "реклама" }) k)
      = false ∧
    (clusterCommKeywords.any fun k =>
        strContains (listOrgSegText { emptyCompany with name := some "реклама" }) k)
      = false ∧
    pyStartsWith (pyStrOpt (Company.okved_main
        { emptyCompany with name := some "реклама" })) "73.11" = false ∧
    pyStartsWith (pyStrOpt (Company.okved_main
        { emptyCompany with name := some "реклама" })) "18.12" = false ∧
    pyStartsWith (pyStrOpt (Company.okved_main
        { emptyCompany with name := some "реклама" })) "73.12" = false := by
  refine ⟨by decide, by decide, by decide, by decide, by decide, by decide,
    by decide, by decide, by decide, by decide⟩

/-- **C5 (amended).** On a record matching zero keyword clusters and zero
industry-code prefix tests, only the parser.py classifier applies the
generic advertising/marketing last resort (returning exactly
`[COMM_GROUP]` when the text contains `реклам` or `маркетинг`, else
`[OTHER]`); the listorg_parser.py classifier returns `OTHER`
unconditionally in that situation.  In both variants the returned label
set is never empty. -/
theorem segment_classifier_fallback (c : Company) :
    ((parserBtlKeywords.any fun k => strContains (parserSegText c) k) = false →
     (parserSouvenirKeywords.any fun k => strContains (parserSegText c) k) = false →
     (parserFullCycleKeywords.any fun k => strContains (parserSegText c) k) = false →
     (parserCommKeywords.any fun k => strContains (parserSegText c) k) = false →
     (parserOkvedCodes.all fun p => !pyStartsWith (pyStrOpt c.okved_main) p.1) = true →
     parserDetermineSegment c =
       (if strContains (parserSegText c) "реклам" ||
           strContains (parserSegText c) "маркетинг"
        then ["COMM_GROUP"] else ["OTHER"])) ∧
    ((clusterBtlKeywords.any fun k => strContains (listOrgSegText c) k) = false →
     (clusterSouvenirKeywords.any fun k => strContains (listOrgSegText c) k) = false →
     (clusterFullCycleKeywords.any fun k => strContains (listOrgSegText c) k) = false →
     (clusterCommKeywords.any fun k => strContains (listOrgSegText c) k) = false →
     pyStartsWith (pyStrOpt c.okved_main) "73.11" = false →
     pyStartsWith (pyStrOpt c.okved_main) "18.12" = false →
     pyStartsWith (pyStrOpt c.okved_main) "73.12" = false →
     listOrgDetermineSegment c = "OTHER") ∧
    parserDetermineSegment c ≠ [] ∧
    listOrgDetermineSegment c ≠ "" := by
  refine ⟨?_, ?_, ?_, ?_⟩
  · intro h1 h2 h3 h4 h5
    simp only [parserDetermineSegment, h1, h2, h3, h4, Bool.false_eq_true, if_false,
      List.append_nil, okved_foldl_no_match (pyStrOpt c.okved_main) parserOkvedCodes [] h5,
      List.isEmpty_nil, if_true]
    cases hre : (strContains (parserSegText c) "реклам" ||
        strContains (parserSegText c) "маркетинг") <;> simp
  · intro h1 h2 h3 h4 h5 h6 h7
    simp only [listOrgDetermineSegment, h1, h2, h3, h4, h5, h6, h7,
      Bool.or_self, Bool.false_or, Bool.false_eq_true, if_false,
      List.append_nil, List.isEmpty_nil, if_true]
  · simp only [parserDetermineSegment]
    exact final_list_nonempty _
  · simp only [listOrgDetermineSegment]
    exact listorg_join_nonempty _ _ _ _

/-- Witness for the amended C5: both classifier variants evaluated on the
concrete zero-cluster record named `реклама`. -/
theorem segment_classifier_fallback_witness :
    parserDetermineSegment { emptyCompany with name := some "реклама" } =
      (if strContains (parserSegText { emptyCompany with name := some "реклама" })
            "реклам" ||
          strContains (parserSegText { emptyCompany with name := some "реклама" })
            "маркетинг"
       then ["COMM_GROUP"] else ["OTHER"]) ∧
    listOrgDetermineSegment { emptyCompany with name := some "реклама" } = "OTHER" :=
  ⟨(segment_classifier_fallback { emptyCompany with name := some "реклама" }).1
      (by decide) (by decide) (by decide) (by decide) (by decide),
   (segment_classifier_fallback { emptyCompany with name := some "реклама" }).2.1
      (by decide) (by decide) (by decide) (by decide) (by decide) (by decide)
      (by decide)⟩

/-! ## Ratings source assemble step (`RuwardParser.parse_company_page`)

The markup-tree lookups (`soup.find('h1')`, the first absolute link, the
first text node matching the rating / revenue vocabulary) are collaborator
results, gathered in `RuwardPage`.  Inside the revenue branch Python
computes `int(float(digits) * multiplier)`; the float round-trip is exact
below `2^53` and is modelled as exact integer arithmetic. -/

structure RuwardPage where
  /-- `soup.find('h1').text`, when an `h1` exists. -/
  h1Text : Option String := none
  /-- The `href` of the first `<a>` matching `^https?://`, when present. -/
  siteHref : Option String := none
  /-- The first text node matching `рейтинг|место|позиция` (ignoring case). -/
  ratingText : Option String := none
  /-- The first text node matching `выручк|оборот|доход` (ignoring case). -/
  revenueText : Option String := none
deriving DecidableEq

/-- `re.search(r'(\d+)\s*(место|позиция)', ·)` on lowered text: first
digit run followed (after optional whitespace) by one of the literals. -/
def scanDigitsThenLit (lits : List String) : List Char → Option (List Char)
  | [] => none
  | c :: rest =>
    if c.isDigit then
      let run := (c :: rest).takeWhile Char.isDigit
      let after := ((c :: rest).drop run.length).dropWhile pyIsSpace
      if lits.any (fun lit => isPre lit.toList after) then some run
      else scanDigitsThenLit lits rest
    else scanDigitsThenLit lits rest

/-- `re.search(r'(\d[\d\s]*)\s*(млн|млрд|тыс)', ·)` on lowered text:
first digit whose maximal digit/whitespace run is followed by one of the
multiplier literals; returns the run and the matched literal (alternation
tried left to right). -/
def scanAmountMult (lits : List String) : List Char → Option (List Char × String)
  | [] => none
  | c :: rest =>
    if c.isDigit then
      let run := (c :: rest).takeWhile (fun ch => ch.isDigit || pyIsSpace ch)
      match lits.find? (fun lit => isPre lit.toList ((c :: rest).drop run.length)) with
      | some lit => some (run, lit)
      | none => scanAmountMult lits rest
    else scanAmountMult lits rest

/-- The rating-position branch of `parse_company_page`:
`int(match.group(1))`. -/
def ruwardScanRating (lowText : String) : Option Int :=
  match scanDigitsThenLit ["место", "позиция"] lowText.toList with
  | none => none
  | some run => some (Int.ofNat (digitsToNat run))

/-- The revenue branch of `parse_company_page`: strip spaces from the
captured group, parse, scale by the matched multiplier; a non-numeric
remainder (e.g. an embedded tab) raises in Python and is swallowed by
`except: pass`, yielding no revenue. -/
def ruwardScanRevenue (lowText : String) : Option Int :=
  match scanAmountMult ["млн", "млрд", "тыс"] lowText.toList with
  | none => none
  | some (run, mult) =>
    let cleaned := run.filter (fun ch => ch ≠ ' ')
    if cleaned ≠ [] ∧ cleaned.all Char.isDigit then
      let base : Int := Int.ofNat (digitsToNat cleaned)
      if strContains mult "млрд" then some (base * 1000000000)
      else if strContains mult "млн" then some (base * 1000000)
      else if strContains mult "тыс" then some (base * 1000)
      else some base
    else none

def ruwardBaseUrl : String := "https://www.ruward.ru"

/-- `RuwardParser.parse_company_page`: builds `company_data` from the
page; `source` and `url` are always set, so the final
`return company_data if company_data else None` always returns the dict
(possibly without `name`, `site`, `revenue`, ...). `currentYear` is
`datetime.now().year`. -/
def ruwardParseCompanyPage (urlPath : String) (currentYear : Int)
    (fetched : Option RuwardPage) : Option Company :=
  let url := if pyStartsWith urlPath "/" then ruwardBaseUrl ++ urlPath else urlPath
  match fetched with
  | none => none
  | some pg =>
    let name : Option String := pg.h1Text.map pyStrip
    let ratingPos : Option Int :=
      match pg.ratingText with
      | none => none
      | some t => ruwardScanRating (pyLower t)
    let rev : Option Int :=
      match pg.revenueText with
      | none => none
      | some t => ruwardScanRevenue (pyLower t)
    let segTag : Option String :=
      if strContains (pyLower url) "digital" then some "DIGITAL_AGENCY"
      else if strContains (pyLower url) "pr" then some "PR_AGENCY"
      else if strContains (pyLower url) "btl" then some "BTL_AGENCY"
      else if strContains (pyLower url) "event" then some "EVENT_AGENCY"
      else if strContains (pyLower url) "media" then some "MEDIA_AGENCY"
      else none
    some { emptyCompany with
        name := name, site := pg.siteHref, rating_position := ratingPos,
        revenue := rev,
        revenue_year := if rev.isSome then some currentYear else none,
        source := some "ruward", url := some url, segment_tag := segTag }

/-! ## Directory source assemble step (`RusprofileParser.parse_company_page`)

`RusprofileParser` inherits `_is_relevant_profile` from `BaseParser`,
whose body is a documented stub (`pass`), i.e. it returns Python `None`;
step 9 of `parse_company_page` (`if not self._is_relevant_profile(...):
return None`) therefore rejects every record.  Markup-tree sub-extractors
for okved/region/site/description only fill optional fields and are
collaborator inputs. -/

/-- `BaseParser._is_relevant_profile`: a stub whose body is `pass`,
returning Python `None`. -/
def baseIsRelevantProfile (_c : Company) : Option Bool := none

/-- Truthiness of an optional boolean (`if x:` for `x = None`/`bool`). -/
def pyTruthyOptBool : Option Bool → Bool
  | none => false
  | some b => b

/-- Python `\b`-word characters (letters, digits, underscore; Cyrillic
letters are word characters under Unicode matching). -/
def pyIsWordChar (c : Char) : Bool :=
  c.isAlpha || c.isDigit || c = '_' || (0x400 ≤ c.toNat && c.toNat ≤ 0x4FF)

/-- The candidate capture of the tail `\s*[\:\-]?\s*(\d{10})`: greedy
whitespace, optional colon/hyphen, greedy whitespace, then the next ten
characters. -/
def innDigitsCandidate (after : List Char) : List Char :=
  let a1 := after.dropWhile pyIsSpace
  let a2 :=
    match a1 with
    | c :: rest => if c = ':' || c = '-' then rest else a1
    | [] => a1
  (a2.dropWhile pyIsSpace).take 10

/-- The tail `\s*[\:\-]?\s*(\d{10})` of the labeled rusprofile tax-id
patterns: succeeds iff the candidate is ten digit characters. -/
def innTailAt (after : List Char) : Option String :=
  if (innDigitsCandidate after).length = 10 ∧
      (innDigitsCandidate after).all Char.isDigit
  then some (String.mk (innDigitsCandidate after)) else none

/-- `re.search` for `label\s*[\:\-]?\s*(\d{10})`. -/
def searchInnLabeled (label : List Char) : List Char → Option String
  | [] => none
  | text@(_ :: tl) =>
    if isPre label text then
      match innTailAt (text.drop label.length) with
      | some s => some s
      | none => searchInnLabeled label tl
    else searchInnLabeled label tl

/-- `.*ИНН` after a position: the literal is reachable without crossing a
newline. -/
def noNewlineThen (lit : List Char) : List Char → Bool
  | [] => isPre lit []
  | l@(c :: rest) => isPre lit l || (c != '\n' && noNewlineThen lit rest)

/-- A word boundary before the current position (`prev` is the previous
character; text start counts as a boundary). -/
def boundaryOk : Option Char → Bool
  | none => true
  | some p => !pyIsWordChar p

/-- A word boundary right after the ten captured digits. -/
def afterBoundaryOk : List Char → Bool
  | [] => true
  | a :: _ => !pyIsWordChar a

/-- The anchored attempt of `(\d{10})\b.*ИНН` at one position. -/
def boundedTenAt (l : List Char) : Option String :=
  if (l.take 10).length = 10 ∧ (l.take 10).all Char.isDigit ∧
      afterBoundaryOk (l.drop 10) = true ∧
      noNewlineThen "ИНН".toList (l.drop 10) = true
  then some (String.mk (l.take 10))
  else none

/-- `re.search(r'\b(\d{10})\b.*ИНН', ·)`: a word-boundary-delimited run
of exactly ten digits with `ИНН` somewhere later on the same line;
`prev` is the character before the current position. -/
def scanBoundedTen (prev : Option Char) : List Char → Option String
  | [] => none
  | l@(c :: rest) =>
    if boundaryOk prev && c.isDigit then
      match boundedTenAt l with
      | some s => some s
      | none => scanBoundedTen (some c) rest
    else scanBoundedTen (some c) rest

/-- The `inn_patterns` loop of `RusprofileParser.parse_company_page`
over the page text. -/
def rusprofileExtractInn (text : String) : Option String :=
  match searchInnLabeled "ИНН".toList text.toList with
  | some s => some s
  | none =>
    match searchInnLabeled "ИНН/КПП".toList text.toList with
    | some s => some s
    | none => scanBoundedTen none text.toList

/-- The URL fallback `re.search(r'/id/(\d{10})', url_path)`. -/
def searchUrlInn : List Char → Option String
  | [] => none
  | text@(_ :: tl) =>
    if isPre "/id/".toList text then
      if ((text.drop 4).take 10).length = 10 ∧
          ((text.drop 4).take 10).all Char.isDigit
      then some (String.mk ((text.drop 4).take 10))
      else searchUrlInn tl
    else searchUrlInn tl

/-- `RusprofileParser._determine_segment` — character-identical to the
listorg_parser.py variant embedded as `listOrgDetermineSegment`. -/
def rusprofileDetermineSegment (c : Company) : String := listOrgDetermineSegment c

/-- Collaborator results for one rusprofile page. -/
structure RusprofilePage where
  /-- `soup.find('h1', class_='company-name')`, stripped text. -/
  nameText : Option String := none
  /-- `soup.get_text()`. -/
  fullText : String := ""
  /-- Text of the finance section, when that markup lookup finds one. -/
  financeText : Option String := none
  /-- Results of the okved/region/site/description sub-extractors
  (markup-tree lookups; they never cause a rejection). -/
  okvedFound : Option String := none
  regionFound : Option String := none
  siteFound : Option String := none
  descFound : Option String := none
deriving DecidableEq

/-- `RusprofileParser.parse_company_page`. -/
def rusprofileParsePage (urlPath : String) (fetched : Option RusprofilePage) :
    Option Company :=
  match fetched with
  | none => none
  | some pg =>
    match pg.nameText with
    | none => none
    | some nm =>
      if nm.isEmpty then none
      else
        let inn :=
          match rusprofileExtractInn pg.fullText with
          | some i => some i
          | none => searchUrlInn urlPath.toList
        match inn with
        | none => none
        | some i =>
          match rusprofileExtractRevenue pg.financeText (pyLower pg.fullText) with
          | none => none
          | some rev =>
            if rev = 0 || rev < 200000000 then none
            else
              let c : Company :=
                { emptyCompany with
                    inn := some i, name := some nm, revenue_year := some 2023,
                    revenue := some (Int.ofNat rev),
                    okved_main := pg.okvedFound, region := pg.regionFound,
                    site := pg.siteFound, description := pg.descFound,
                    rating_ref := some urlPath, source := some "rusprofile" }
              let c := { c with segment_tag := some (rusprofileDetermineSegment c) }
              if pyTruthyOptBool (baseIsRelevantProfile c) then some c else none

/-- The inherited relevance-profile stub rejects everything: the
rusprofile assemble step returns absent for every input. -/
theorem rusprofileParsePage_none (urlPath : String)
    (fetched : Option RusprofilePage) :
    rusprofileParsePage urlPath fetched = none := by
  unfold rusprofileParsePage
  cases fetched with
  | none => rfl
  | some pg =>
    repeat' split
    all_goals first
      | rfl
      | (cases searchUrlInn urlPath.toList <;> rfl)

/-- A ruward company page with no `h1`, no absolute link, no rating and
no revenue text. -/
def ruwardEmptyPage : RuwardPage := {}

/-- The record the ruward assemble step produces from `ruwardEmptyPage`:
only provenance (`source`, `url`), no name, no identity. -/
def ruwardPartialRecord : Company :=
  { emptyCompany with
      source := some "ruward", url := some "https://www.ruward.ru/company/foo" }

/-- Counterexample for C7: on a fetched page with no `h1`, the ruward
assemble step (`parse_company_page`) returns a record — not absent — that
has no `name`, no tax id and no `site`: a partial record escapes the
assemble step. -/
theorem assemble_partial_record_counterexample :
    ruwardParseCompanyPage "/company/foo" 2024 (some ruwardEmptyPage) =
      some ruwardPartialRecord ∧
    ruwardPartialRecord.name = none ∧ ruwardPartialRecord.inn = none ∧
    ruwardPartialRecord.site = none := by
  refine ⟨by decide, by decide, by decide, by decide⟩

theorem ite_guard_true {b x : Bool} (h : (if b = true then false else x) = true) :
    x = true := by
  cases b <;> simp_all

/-- **C7 (amended).** The rusprofile assemble step never returns a record
lacking a nonempty name or a valid 10-digit identity (indeed, through the
inherited relevance-profile stub it returns absent for every input); the
ruward assemble step, however, can return partial records missing the
name — for ruward, nonempty name and an `http` site are guaranteed only
after its relevance filter. -/
theorem assemble_mandatory_fields :
    (∀ (urlPath : String) (fetched : Option RusprofilePage),
        ((rusprofileParsePage urlPath fetched).all
          (fun c =>
            pyTruthyStr c.name &&
              (match c.inn with
               | some i => isValidIdentifier i
               | none => false))) = true) ∧
    (∀ c : Company, ruwardIsRelevantCompany c = true →
        (∃ n, c.name = some n ∧ n ≠ "") ∧
        (∃ s, c.site = some s ∧ pyStartsWith s "http" = true)) := by
  constructor
  · intro urlPath fetched
    rw [rusprofileParsePage_none]
    rfl
  · intro c h
    cases hn : c.name with
    | none =>
      simp only [ruwardIsRelevantCompany, hn] at h
      exact absurd h (by simp)
    | some name =>
      simp only [ruwardIsRelevantCompany, hn] at h
      split at h
      · exact absurd h (by simp)
      · next hne =>
        cases hr : c.revenue with
        | none => simp only [hr] at h; exact absurd h (by simp)
        | some r =>
          simp only [hr] at h
          split at h
          · exact absurd h (by simp)
          · have hS := ite_guard_true h
            cases hs : c.site with
            | none => simp only [hs] at hS; exact absurd hS (by simp)
            | some site =>
              simp only [hs] at hS
              split at hS
              · exact absurd hS (by simp)
              · refine ⟨⟨name, rfl, ?_⟩, ⟨site, rfl, hS⟩⟩
                intro hcon
                rw [hcon] at hne
                exact hne (by decide)

/-- Witness for the amended C7: the ruward filter's mandatory-field
guarantee evaluated at the concrete accepted ratings record. -/
theorem assemble_mandatory_fields_witness :
    (∃ n, ruwardRec150.name = some n ∧ n ≠ "") ∧
    (∃ s, ruwardRec150.site = some s ∧ pyStartsWith s "http" = true) :=
  assemble_mandatory_fields.2 ruwardRec150 (by decide)

theorem pyIsdigit_mk_ten (ds : List Char) (h10 : ds.length = 10)
    (hd : ds.all Char.isDigit = true) :
    (String.mk ds).length = 10 ∧ pyIsdigit (String.mk ds) = true := by
  have hne : String.mk ds ≠ "" := by
    intro hcon
    have hds : ds = [] := congrArg String.data hcon
    rw [hds] at h10
    exact absurd h10 (by decide)
  refine ⟨h10, ?_⟩
  unfold pyIsdigit
  rw [isEmpty_false_of_ne _ hne]
  simpa using hd

theorem innTail_ten (after : List Char) (s : String)
    (h : innTailAt after = some s) : s.length = 10 ∧ pyIsdigit s = true := by
  unfold innTailAt at h
  split at h
  · next hcond =>
    cases h
    exact pyIsdigit_mk_ten _ hcond.1 hcond.2
  · exact absurd h (by simp)

theorem boundedTenAt_ten (l : List Char) (s : String)
    (h : boundedTenAt l = some s) : s.length = 10 ∧ pyIsdigit s = true := by
  unfold boundedTenAt at h
  split at h
  · next hcond =>
    cases h
    exact pyIsdigit_mk_ten _ hcond.1 hcond.2.1
  · exact absurd h (by simp)

theorem searchInnLabeled_ten (label : List Char) :
    ∀ (l : List Char) (s : String),
      searchInnLabeled label l = some s → s.length = 10 ∧ pyIsdigit s = true
  | [] => by intro s h; exact absurd h (by simp [searchInnLabeled])
  | c :: tl => by
    intro s h
    unfold searchInnLabeled at h
    split at h
    · split at h
      · next heq =>
        cases h
        exact innTail_ten _ _ heq
      · exact searchInnLabeled_ten label tl s h
    · exact searchInnLabeled_ten label tl s h

theorem scanBoundedTen_ten :
    ∀ (l : List Char) (prev : Option Char) (s : String),
      scanBoundedTen prev l = some s → s.length = 10 ∧ pyIsdigit s = true
  | [] => by intro prev s h; exact absurd h (by simp [scanBoundedTen])
  | c :: rest => by
    intro prev s h
    unfold scanBoundedTen at h
    split at h
    · split at h
      · next heq =>
        cases h
        exact boundedTenAt_ten _ _ heq
      · exact scanBoundedTen_ten rest (some c) s h
    · exact scanBoundedTen_ten rest (some c) s h

theorem searchUrlInn_ten :
    ∀ (l : List Char) (s : String),
      searchUrlInn l = some s → s.length = 10 ∧ pyIsdigit s = true
  | [] => by intro s h; exact absurd h (by simp [searchUrlInn])
  | c :: tl => by
    intro s h
    unfold searchUrlInn at h
    split at h
    · split at h
      · next hcond =>
        cases h
        exact pyIsdigit_mk_ten _ hcond.1 hcond.2
      · exact searchUrlInn_ten tl s h
    · exact searchUrlInn_ten tl s h

/-- **C10.** Every tax-id capture of the rusprofile adapter — the three
page-text patterns and the URL fallback — is a string of exactly ten
digits, so every record it could produce carries a valid 10-digit tax
identifier; and a company page whose only published identifier is a
12-digit one yields no record from this adapter (on such a page the first
labeled pattern captures the first ten digits, and the record is then
discarded: through the inherited relevance-profile stub the assemble step
returns absent for every input whatsoever). -/
theorem rusprofile_ten_digit_identity :
    (∀ (t : String) (s : String), rusprofileExtractInn t = some s →
        s.length = 10 ∧ pyIsdigit s = true) ∧
    (∀ (u : String) (s : String), searchUrlInn u.toList = some s →
        s.length = 10 ∧ pyIsdigit s = true) ∧
    (∀ (urlPath : String) (fetched : Option RusprofilePage),
        ((rusprofileParsePage urlPath fetched).all
          (fun c =>
            match c.inn with
            | some i => i.length = 10 && pyIsdigit i
            | none => false)) = true) ∧
    rusprofileParsePage "/ip/ivanov"
        (some { nameText := some "ИП Иванов",
                fullText := "ИП Иванов ИНН 123456789012 выручка за 2023: 250000000 руб" })
      = none := by
  refine ⟨?_, ?_, ?_, rusprofileParsePage_none _ _⟩
  · intro t s h
    unfold rusprofileExtractInn at h
    split at h
    · next heq => cases h; exact searchInnLabeled_ten _ _ _ heq
    · split at h
      · next heq => cases h; exact searchInnLabeled_ten _ _ _ heq
      · exact scanBoundedTen_ten _ _ _ h
  · intro u s h
    exact searchUrlInn_ten _ _ h
  · intro urlPath fetched
    rw [rusprofileParsePage_none]
    rfl

/-- Witness for C10: the first labeled pattern evaluated on a concrete
page text captures the ten-digit identifier. -/
theorem rusprofile_ten_digit_identity_witness :
    ("1234567890" : String).length = 10 ∧ pyIsdigit "1234567890" = true :=
  rusprofile_ten_digit_identity.1 "ИНН 1234567890" "1234567890" (by decide)

/-! ## Substring lemmas

Infrastructure for claim C9: occurrence of a whitespace-free pattern is
preserved backwards through `take`, `strip`, whitespace collapsing and
character-wise lowering. -/

theorem hasSub_nil (l : List Char) : hasSub [] l = true := by
  cases l <;> simp [hasSub, isPre]

theorem hasSub_cons_of (p l : List Char) (c : Char) (h : hasSub p l = true) :
    hasSub p (c :: l) = true := by
  have : hasSub p (c :: l) = (isPre p (c :: l) || hasSub p l) := by
    cases l <;> rfl
  rw [this, h, Bool.or_true]

theorem isPre_take : ∀ (p l : List Char) (n : Nat),
    isPre p (l.take n) = true → isPre p l = true
  | [], _, _ => fun _ => rfl
  | a :: p, [], _ => fun h => by rwa [List.take_nil] at h
  | a :: p, c :: l, 0 => fun h => by
    rw [List.take_zero] at h
    exact absurd h (by simp [isPre])
  | a :: p, c :: l, n + 1 => fun h => by
    rw [List.take_succ_cons] at h
    simp only [isPre, Bool.and_eq_true] at h ⊢
    exact ⟨h.1, isPre_take p l n h.2⟩

theorem hasSub_take : ∀ (p l : List Char) (n : Nat),
    hasSub p (l.take n) = true → hasSub p l = true
  | p, [], n => fun h => by rwa [List.take_nil] at h
  | p, c :: l, 0 => fun h => by
    rw [List.take_zero] at h
    cases p with
    | nil => exact hasSub_nil _
    | cons a p' => exact absurd h (by simp [hasSub, isPre])
  | p, c :: l, n + 1 => fun h => by
    rw [List.take_succ_cons] at h
    have hc : hasSub p (c :: l.take n) = (isPre p (c :: l.take n) || hasSub p (l.take n)) := by
      cases l.take n <;> rfl
    have hg : hasSub p (c :: l) = (isPre p (c :: l) || hasSub p l) := by
      cases l <;> rfl
    rw [hc] at h
    rw [hg]
    rcases Bool.or_eq_true_iff.mp h with h1 | h2
    · have := isPre_take p (c :: l) (n + 1) (by rwa [List.take_succ_cons])
      rw [this]
      rfl
    · rw [hasSub_take p l n h2, Bool.or_true]

theorem isPre_append_of (p l r : List Char) :
    isPre p l = true → isPre p (l ++ r) = true := by
  induction p generalizing l with
  | nil => intro _; rfl
  | cons a p ih =>
    intro h
    cases l with
    | nil => exact absurd h (by simp [isPre])
    | cons c l =>
      simp only [List.cons_append, isPre, Bool.and_eq_true] at h ⊢
      exact ⟨h.1, ih l h.2⟩

theorem hasSub_append_right : ∀ (p l r : List Char),
    hasSub p l = true → hasSub p (l ++ r) = true
  | p, [], r => fun h => by
    cases p with
    | nil => exact hasSub_nil _
    | cons a p' => exact absurd h (by simp [hasSub, isPre])
  | p, c :: l, r => fun h => by
    have hc : hasSub p (c :: l) = (isPre p (c :: l) || hasSub p l) := by
      cases l <;> rfl
    have hg : hasSub p (c :: (l ++ r)) = (isPre p (c :: (l ++ r)) || hasSub p (l ++ r)) := by
      cases l ++ r <;> rfl
    rw [hc] at h
    rw [List.cons_append, hg]
    rcases Bool.or_eq_true_iff.mp h with h1 | h2
    · rw [show isPre p (c :: (l ++ r)) = true from by
        have := isPre_append_of p (c :: l) r h1
        rwa [List.cons_append] at this]
      rfl
    · rw [hasSub_append_right p l r h2, Bool.or_true]

theorem hasSub_append_left : ∀ (p l r : List Char),
    hasSub p r = true → hasSub p (l ++ r) = true
  | p, [], r => fun h => h
  | p, c :: l, r => fun h => by
    rw [List.cons_append]
    exact hasSub_cons_of p (l ++ r) c (hasSub_append_left p l r h)

theorem hasSub_map_dropWhile (f : Char → Char) (q : Char → Bool) :
    ∀ (l p : List Char),
      hasSub p ((l.dropWhile q).map f) = true → hasSub p (l.map f) = true
  | [], p => fun h => h
  | c :: l, p => fun h => by
    rw [List.dropWhile_cons] at h
    by_cases hq : q c = true
    · rw [if_pos hq] at h
      rw [List.map_cons]
      exact hasSub_cons_of p (l.map f) (f c) (hasSub_map_dropWhile f q l p h)
    · rwa [if_neg hq] at h

theorem stripTrail_decomp (l : List Char) :
    stripTrail l ++ ((l.reverse.takeWhile pyIsSpace).reverse) = l := by
  unfold stripTrail
  rw [← List.reverse_append, List.takeWhile_append_dropWhile, List.reverse_reverse]

theorem hasSub_map_stripTrail (f : Char → Char) (p l : List Char)
    (h : hasSub p ((stripTrail l).map f) = true) : hasSub p (l.map f) = true := by
  have hl : l.map f =
      (stripTrail l).map f ++ ((l.reverse.takeWhile pyIsSpace).reverse).map f := by
    rw [← List.map_append, stripTrail_decomp]
  rw [hl]
  exact hasSub_append_right p _ _ h

theorem pyLowerChar_space : pyLowerChar ' ' = ' ' := by decide

theorem isPre_map_collapseAux :
    ∀ (l p : List Char), p.all (fun c => !pyIsSpace c) = true →
      isPre p ((collapseWsAux false l).map pyLowerChar) = true →
      isPre p (l.map pyLowerChar) = true
  | _, [] => fun _ _ => rfl
  | [], a :: p => fun _ h => by
    simp only [collapseWsAux] at h
    exact absurd h (by simp [isPre])
  | c :: cs, a :: p => fun hp h => by
    simp only [List.all_cons, Bool.and_eq_true, Bool.not_eq_true'] at hp
    by_cases hsp : pyIsSpace c = true
    · rw [collapseWsAux, if_pos hsp] at h
      simp only [Bool.false_eq_true, if_false, List.map_cons] at h
      simp only [isPre, Bool.and_eq_true, decide_eq_true_eq] at h
      rw [show pyLowerChar ' ' = ' ' from by decide] at h
      rw [h.1] at hp
      exact absurd hp.1 (by decide)
    · rw [collapseWsAux, if_neg hsp, List.map_cons] at h
      rw [List.map_cons]
      simp only [isPre, Bool.and_eq_true] at h ⊢
      refine ⟨h.1, isPre_map_collapseAux cs p ?_ h.2⟩
      simp only [List.all_eq_true] at hp ⊢
      exact fun x hx => hp.2 x hx

theorem hasSub_map_collapseAux :
    ∀ (l p : List Char) (prevSpace : Bool),
      p.all (fun c => !pyIsSpace c) = true →
      hasSub p ((collapseWsAux prevSpace l).map pyLowerChar) = true →
      hasSub p (l.map pyLowerChar) = true
  | [], p, prevSpace => fun _ h => by
    simp only [collapseWsAux] at h
    exact h
  | c :: cs, p, prevSpace => fun hp h => by
    by_cases hsp : pyIsSpace c = true
    · rw [collapseWsAux, if_pos hsp] at h
      cases prevSpace with
      | true =>
        simp only [if_true] at h
        rw [List.map_cons]
        exact hasSub_cons_of p (cs.map pyLowerChar) (pyLowerChar c)
          (hasSub_map_collapseAux cs p true hp h)
      | false =>
        simp only [Bool.false_eq_true, if_false, List.map_cons] at h
        rw [show pyLowerChar ' ' = ' ' from by decide] at h
        have hsplit : hasSub p (' ' :: (collapseWsAux true cs).map pyLowerChar) =
            (isPre p (' ' :: (collapseWsAux true cs).map pyLowerChar) ||
              hasSub p ((collapseWsAux true cs).map pyLowerChar)) := by
          cases (collapseWsAux true cs).map pyLowerChar <;> rfl
        rw [hsplit] at h
        rcases Bool.or_eq_true_iff.mp h with h1 | h2
        · cases p with
          | nil => exact hasSub_nil _
          | cons a p' =>
            simp only [isPre, Bool.and_eq_true, decide_eq_true_eq] at h1
            simp only [List.all_cons, Bool.and_eq_true, Bool.not_eq_true'] at hp
            rw [h1.1] at hp
            exact absurd hp.1 (by decide)
        · rw [List.map_cons]
          exact hasSub_cons_of p (cs.map pyLowerChar) (pyLowerChar c)
            (hasSub_map_collapseAux cs p true hp h2)
    · rw [collapseWsAux, if_neg hsp, List.map_cons] at h
      have hsplit : hasSub p (pyLowerChar c :: (collapseWsAux false cs).map pyLowerChar) =
          (isPre p (pyLowerChar c :: (collapseWsAux false cs).map pyLowerChar) ||
            hasSub p ((collapseWsAux false cs).map pyLowerChar)) := by
        cases (collapseWsAux false cs).map pyLowerChar <;> rfl
      rw [hsplit] at h
      rw [List.map_cons]
      rcases Bool.or_eq_true_iff.mp h with h1 | h2
      · cases p with
        | nil => exact hasSub_nil _
        | cons a p' =>
          simp only [isPre, Bool.and_eq_true] at h1 ⊢
          refine Bool.or_eq_true_iff.mpr (Or.inl ?_)
          simp only [isPre, Bool.and_eq_true]
          refine ⟨h1.1, ?_⟩
          refine isPre_map_collapseAux cs p' ?_ h1.2
          simp only [List.all_cons, Bool.and_eq_true] at hp
          exact hp.2
      · exact hasSub_cons_of p (cs.map pyLowerChar) (pyLowerChar c)
          (hasSub_map_collapseAux cs p false hp h2)

theorem hasSub_map_collapse (l p : List Char)
    (hp : p.all (fun c => !pyIsSpace c) = true)
    (h : hasSub p ((collapseWs l).map pyLowerChar) = true) :
    hasSub p (l.map pyLowerChar) = true :=
  hasSub_map_collapseAux l p false hp h

/-! ## Description extraction (claim C9)

`ListOrgParser._extract_clean_description` (listorg_parser.py) with its
helpers `_is_real_description`, `_contains_legal_info` and
`_clean_text`.  Steps 1 and 2 read the markup tree (meta description,
class/id-matched blocks); those lookups are collaborator inputs. -/

/-- The legal/registration phrase vocabulary of `_is_real_description`. -/
def legalPhrases : List String :=
  ["общество с ограниченной ответственностью",
   "ооо", "зао", "оао", "ао", "пао",
   "инн", "огрн", "окпо", "октмо", "окогу",
   "показатели", "адрес", "руководитель",
   "телефон", "вид деятельности компании",
   "юридический адрес", "фактический адрес",
   "основной государственный регистрационный номер",
   "общероссийский классификатор",
   "дата регистрации", "уставный капитал",
   "кпп", "егрюл"]

/-- The activity keyword vocabulary of `_is_real_description`. -/
def activityKeywords : List String :=
  ["услуги", "деятельность", "работает", "занимается",
   "специализация", "предоставляет", "оказывает",
   "производство", "продажа", "организация",
   "разработка", "внедрение", "проведение",
   "создание", "реализация", "обслуживание"]

/-- `ListOrgParser._is_real_description`. -/
def isRealDescription (text companyName : String) : Bool :=
  if legalPhrases.any (fun p => strContains (pyLower text) p) then false
  else if strContains (pyLower text) (pyLower companyName) &&
      decide ((pyLower text).length < 2 * (pyLower companyName).length) then false
  else if text.length < 20 || text.length > 500 then false
  else if !(activityKeywords.any (fun k => strContains (pyLower text) k)) then false
  else true

/-- `\b<label>\s*\d{lo,hi}\b` at successive positions (`prev` is the
previous character): a word-boundary-delimited label, optional
whitespace, then a digit run of length `lo`–`hi` ending at a word
boundary. -/
def labeledNumScan (label : List Char) (lo hi : Nat) :
    Option Char → List Char → Bool
  | _, [] => false
  | prev, l@(c :: rest) =>
    (boundaryOk prev && isPre label l &&
      (let after := (l.drop label.length).dropWhile pyIsSpace
       let run := after.takeWhile Char.isDigit
       decide (lo ≤ run.length) && decide (run.length ≤ hi) &&
         afterBoundaryOk (after.drop run.length))) ||
    labeledNumScan label lo hi (some c) rest

/-- `\d{2}[\.]\d{2}[\.]\d{6,7}` somewhere in the text. -/
def dottedNumScan : List Char → Bool
  | [] => false
  | l@(_ :: rest) =>
    (match l with
     | a :: b :: '.' :: d :: e :: '.' :: tail =>
       a.isDigit && b.isDigit && d.isDigit && e.isDigit &&
         decide (((tail.take 6).length = 6)) && (tail.take 6).all Char.isDigit
     | _ => false) ||
    dottedNumScan rest

/-- `\d{13,15}` somewhere in the text: thirteen consecutive digits. -/
def thirteenDigitScan : List Char → Bool
  | [] => false
  | l@(_ :: rest) =>
    (decide ((l.take 13).length = 13) && (l.take 13).all Char.isDigit) ||
    thirteenDigitScan rest

/-- `\b<token>\b` somewhere in the text. -/
def wordTokenScan (token : List Char) : Option Char → List Char → Bool
  | _, [] => false
  | prev, l@(c :: rest) =>
    (boundaryOk prev && isPre token l && afterBoundaryOk (l.drop token.length)) ||
    wordTokenScan token (some c) rest

/-- `ListOrgParser._contains_legal_info`: the stricter boilerplate
detector used as an extra veto in the sentence-scanning fallback. -/
def containsLegalInfo (text : String) : Bool :=
  let tl := (pyLower text).toList
  labeledNumScan "инн".toList 10 12 none tl ||
  labeledNumScan "огрн".toList 13 15 none tl ||
  labeledNumScan "окпо".toList 8 10 none tl ||
  dottedNumScan tl ||
  thirteenDigitScan tl ||
  hasSub "общество с ограниченной ответственностью".toList tl ||
  wordTokenScan "ооо".toList none tl

/-- A markup block considered by step 2 of the description extractor:
its `class` attribute (joined), its `id` attribute, and its stripped
text. -/
structure MarkBlock where
  classStr : String := ""
  idStr : String := ""
  text : String := ""
deriving DecidableEq

/-- The class/id vocabulary of step 2. -/
def descClasses : List String :=
  ["description", "about", "info", "text", "desc",
   "activity", "services", "услуги", "деятельность"]

/-- The class/id test of step 2. -/
def blockMatchesClasses (b : MarkBlock) : Bool :=
  descClasses.any (fun dc => strContains (pyLower b.classStr) dc) ||
  descClasses.any (fun dc => strContains (pyLower b.idStr) dc)

/-- The labels of the step-3 sentence patterns
`<label>[:\s]*([^\n\.]{10,150})`. -/
def descLabels : List String :=
  ["Предоставляет услуги", "Специализация", "Основные услуги",
   "Занимается", "Осуществляет деятельность", "Деятельность компании",
   "Компания работает в сфере"]

/-- Number of leading characters matchable by `[^\n\.]` (the capture
class). -/
def capNonDotLen (l : List Char) : Nat :=
  (l.takeWhile (fun c => c ≠ '\n' && c ≠ '.')).length

/-- Number of leading characters matchable by `[:\s]` (the skip class). -/
def skipColonSpaceLen (l : List Char) : Nat :=
  (l.takeWhile (fun c => c = ':' || pyIsSpace c)).length

/-- `min` on `Nat`, written out so that kernel reduction is direct. -/
def natMin (a b : Nat) : Nat := if a ≤ b then a else b

/-- One backtracking attempt of the tail `[:\s]*([^\n\.]{10,150})`: with
the skip length fixed at `j`, the capture class must match at least 10
characters at position `j`, and the greedy capture then takes up to 150
of them. -/
def descTryAt (o : List Char) (j : Nat) : Option (List Char) :=
  let D := capNonDotLen (o.drop j)
  if 10 ≤ D then some ((o.drop j).take (natMin 150 D)) else none

/-- Greedy-with-backtracking choice of the skip length for `[:\s]*`:
`j` starts at the full skippable run and decreases one character at a
time until the capture fits. -/
def descBacktrack (o : List Char) : Nat → Option (List Char)
  | 0 => descTryAt o 0
  | j + 1 =>
    match descTryAt o (j + 1) with
    | some cap => some cap
    | none => descBacktrack o j

/-- The anchored tail `[:\s]*([^\n\.]{10,150})` after a matched label:
`[:\s]*` greedily consumes the maximal run of colons and whitespace —
newlines included, so the capture may start after a line break — and
backtracks one character at a time until at least 10 characters
matchable by `[^\n\.]` follow; the capture is the greedy `min 150`
prefix of that run.  Fails when no skip length admits a 10-character
capture. -/
def descCaptureAt (o : List Char) : Option (List Char) :=
  descBacktrack o (skipColonSpaceLen o)

/-- `re.search` of one step-3 pattern with `re.IGNORECASE`: the label is
located in the lowered text while the capture is taken from the original
text (`orig` and `low` advance in lockstep). -/
def searchDescPattern (labelLow : List Char) :
    List Char → List Char → Option (List Char)
  | _, [] => none
  | [], _ :: _ => none
  | o@(_ :: orest), ll@(_ :: lrest) =>
    if isPre labelLow ll then
      match descCaptureAt (o.drop labelLow.length) with
      | some cap => some cap
      | none => searchDescPattern labelLow orest lrest
    else searchDescPattern labelLow orest lrest

/-- The step-3 loop: first pattern whose captured span passes the
real-description test wins. -/
def descStep3 (text companyName : String) : List String → Option String
  | [] => none
  | label :: rest =>
    match searchDescPattern (pyLower label).toList text.toList (pyLower text).toList with
    | some cap =>
      if isRealDescription (pyStrip (String.mk cap)) companyName then
        some (cleanText (pyTake 200 (pyStrip (String.mk cap))))
      else descStep3 text companyName rest
    | none => descStep3 text companyName rest

/-- Whether a delimiter's `\s+` part can start here. -/
def headIsSpace : List Char → Bool
  | [] => false
  | r :: _ => pyIsSpace r

/-- `re.split(r'[\.!?]\s+', ·)`: split on a sentence-final punctuation
character followed by at least one whitespace character (the whitespace
run is consumed greedily). -/
def sentSplitAux (cur : List Char) : List Char → List (List Char)
  | [] => [cur.reverse]
  | c :: rest =>
    if (c = '.' || c = '!' || c = '?') && headIsSpace rest then
      cur.reverse :: sentSplitAux [] (rest.dropWhile pyIsSpace)
    else sentSplitAux (c :: cur) rest
termination_by l => l.length
decreasing_by
  · simp only [List.length_cons]
    exact Nat.lt_succ_of_le (dropWhile_len_le pyIsSpace _)
  · simp

/-- The step-4 sentence-scanning fallback. -/
def descStep4 (companyName : String) : List (List Char) → Option String
  | [] => none
  | sent :: rest =>
    if 30 < (pyStrip (String.mk sent)).length ∧ (pyStrip (String.mk sent)).length < 200 ∧
        isRealDescription (pyStrip (String.mk sent)) companyName = true ∧
        containsLegalInfo (pyStrip (String.mk sent)) = false
    then some (cleanText (pyStrip (String.mk sent)))
    else descStep4 companyName rest

/-- Step 1 of the description extractor: the meta-description content. -/
def descStep1 (metaContent : Option String) (companyName : String) : Option String :=
  match metaContent with
  | some mc =>
    if !mc.isEmpty then
      if isRealDescription (pyStrip mc) companyName then
        some (cleanText (pyTake 200 (pyStrip mc)))
      else none
    else none
  | none => none

/-- Step 2 of the description extractor: the first class/id-matched block
whose stripped text passes the real-description test. -/
def descStep2 (companyName : String) : List MarkBlock → Option String
  | [] => none
  | b :: rest =>
    if blockMatchesClasses b then
      if isRealDescription b.text companyName then
        some (cleanText (pyTake 200 b.text))
      else descStep2 companyName rest
    else descStep2 companyName rest

/-- `ListOrgParser._extract_clean_description`: meta description, then
class/id blocks, then labeled sentence patterns, then the
sentence-scanning fallback; absent if nothing passes. -/
def extractCleanDescription (metaContent : Option String) (blocks : List MarkBlock)
    (text companyName : String) : Option String :=
  match descStep1 metaContent companyName with
  | some d => some d
  | none =>
    match descStep2 companyName blocks with
    | some d => some d
    | none =>
      match descStep3 text companyName descLabels with
      | some d => some d
      | none => descStep4 companyName (sentSplitAux [] text.toList)

theorem isReal_no_legal (t name : String) (h : isRealDescription t name = true)
    (tok : String) (htok : tok ∈ legalPhrases) :
    strContains (pyLower t) tok = false := by
  unfold isRealDescription at h
  split at h
  · exact absurd h (by simp)
  · next hany =>
    cases hc : strContains (pyLower t) tok
    · rfl
    · exact absurd (List.any_eq_true.mpr ⟨tok, htok, hc⟩) hany

theorem hasSub_map_cleanText (p : List Char)
    (hp : p.all (fun c => !pyIsSpace c) = true) (s : String)
    (h : hasSub p ((cleanText s).toList.map pyLowerChar) = true) :
    hasSub p (s.toList.map pyLowerChar) = true := by
  have h1 : hasSub p ((stripList (collapseWs s.toList)).map pyLowerChar) = true := h
  unfold stripList at h1
  have h2 := hasSub_map_stripTrail pyLowerChar p (stripLead (collapseWs s.toList)) h1
  unfold stripLead at h2
  have h3 := hasSub_map_dropWhile pyLowerChar pyIsSpace (collapseWs s.toList) p h2
  exact hasSub_map_collapse s.toList p hp h3

theorem hasSub_map_pyTake (p : List Char) (n : Nat) (s : String)
    (h : hasSub p ((pyTake n s).toList.map pyLowerChar) = true) :
    hasSub p (s.toList.map pyLowerChar) = true := by
  have h1 : hasSub p ((s.toList.take n).map pyLowerChar) = true := h
  rw [List.map_take] at h1
  exact hasSub_take p _ n h1

theorem descStep1_shape (metaContent : Option String) (companyName d : String)
    (h : descStep1 metaContent companyName = some d) :
    ∃ t, isRealDescription t companyName = true ∧ d = cleanText (pyTake 200 t) := by
  unfold descStep1 at h
  split at h
  · split at h
    · split at h
      · next hreal =>
        cases h
        exact ⟨_, hreal, rfl⟩
      · exact absurd h (by simp)
    · exact absurd h (by simp)
  · exact absurd h (by simp)

theorem descStep2_shape (companyName : String) :
    ∀ (bs : List MarkBlock) (d : String),
      descStep2 companyName bs = some d →
      ∃ t, isRealDescription t companyName = true ∧ d = cleanText (pyTake 200 t)
  | [] => by intro d h; exact absurd h (by simp [descStep2])
  | b :: rest => by
    intro d h
    unfold descStep2 at h
    split at h
    · split at h
      · next hreal =>
        cases h
        exact ⟨_, hreal, rfl⟩
      · exact descStep2_shape companyName rest d h
    · exact descStep2_shape companyName rest d h

theorem descStep3_shape (text companyName : String) :
    ∀ (labels : List String) (d : String),
      descStep3 text companyName labels = some d →
      ∃ t, isRealDescription t companyName = true ∧ d = cleanText (pyTake 200 t)
  | [] => by intro d h; exact absurd h (by simp [descStep3])
  | label :: rest => by
    intro d h
    unfold descStep3 at h
    split at h
    · split at h
      · next hreal =>
        cases h
        exact ⟨_, hreal, rfl⟩
      · exact descStep3_shape text companyName rest d h
    · exact descStep3_shape text companyName rest d h

theorem descStep4_shape (companyName : String) :
    ∀ (sents : List (List Char)) (d : String),
      descStep4 companyName sents = some d →
      ∃ t, isRealDescription t companyName = true ∧ d = cleanText t
  | [] => by intro d h; exact absurd h (by simp [descStep4])
  | sent :: rest => by
    intro d h
    unfold descStep4 at h
    split at h
    · next hcond =>
      cases h
      exact ⟨_, hcond.2.2.1, rfl⟩
    · exact descStep4_shape companyName rest d h

theorem extract_desc_shape (metaContent : Option String) (blocks : List MarkBlock)
    (text companyName d : String)
    (h : extractCleanDescription metaContent blocks text companyName = some d) :
    ∃ t, isRealDescription t companyName = true ∧
      (d = cleanText (pyTake 200 t) ∨ d = cleanText t) := by
  unfold extractCleanDescription at h
  split at h
  · next heq =>
    cases h
    obtain ⟨t, hr, he⟩ := descStep1_shape metaContent companyName _ heq
    exact ⟨t, hr, Or.inl he⟩
  · split at h
    · next heq =>
      cases h
      obtain ⟨t, hr, he⟩ := descStep2_shape companyName blocks _ heq
      exact ⟨t, hr, Or.inl he⟩
    · split at h
      · next heq =>
        cases h
        obtain ⟨t, hr, he⟩ := descStep3_shape text companyName descLabels _ heq
        exact ⟨t, hr, Or.inl he⟩
      · obtain ⟨t, hr, he⟩ := descStep4_shape companyName _ d h
        exact ⟨t, hr, Or.inr he⟩

/-- **C9 (amended).** Whenever the description extractor returns a value,
that value contains no company-legal-form token: lowered, it contains
neither `ао` (and hence none of зао, оао, пао, ао) nor `ооо`, nor the tax
label `инн`, because every step only returns spans that passed the
real-description test.  The claim's stronger exclusion of tax-ID-shaped
numerals does not hold: a bare 10- or 12-digit numeral survives every
step (see the counterexample). -/
theorem description_no_legal_form (metaContent : Option String)
    (blocks : List MarkBlock) (text companyName d : String)
    (h : extractCleanDescription metaContent blocks text companyName = some d) :
    strContains (pyLower d) "ао" = false ∧
    strContains (pyLower d) "ооо" = false ∧
    strContains (pyLower d) "инн" = false := by
  obtain ⟨t, hreal, hd⟩ := extract_desc_shape metaContent blocks text companyName d h
  have key : ∀ tok : String, tok ∈ legalPhrases →
      tok.toList.all (fun c => !pyIsSpace c) = true →
      strContains (pyLower d) tok = false := by
    intro tok htok hsp
    cases hc : strContains (pyLower d) tok
    · rfl
    · exfalso
      have hc' : hasSub tok.toList (d.toList.map pyLowerChar) = true := hc
      have htrans : hasSub tok.toList (t.toList.map pyLowerChar) = true := by
        rcases hd with hd | hd
        · subst hd
          exact hasSub_map_pyTake tok.toList 200 t
            (hasSub_map_cleanText tok.toList hsp (pyTake 200 t) hc')
        · subst hd
          exact hasSub_map_cleanText tok.toList hsp t hc'
      have hcontra : strContains (pyLower t) tok = true := htrans
      rw [isReal_no_legal t companyName hreal tok htok] at hcontra
      exact absurd hcontra (by decide)
  exact ⟨key "ао" (by decide) (by decide), key "ооо" (by decide) (by decide),
    key "инн" (by decide) (by decide)⟩

/-- Modelled from the claim's words: a tax-ID-shaped numeral is a maximal
run of exactly 10 or exactly 12 decimal digits.  Used only to state the
counterexample; the code itself never defines this notion. -/
def digitRunsAux (cur : Nat) : List Char → List Nat
  | [] => if cur = 0 then [] else [cur]
  | c :: rest =>
    if c.isDigit then digitRunsAux (cur + 1) rest
    else if cur = 0 then digitRunsAux 0 rest
    else cur :: digitRunsAux 0 rest

/-- Modelled from the claim's words: the text contains a maximal digit
run of length 10 or 12. -/
def hasTaxIdShapedNumeral (s : String) : Bool :=
  (digitRunsAux 0 s.toList).any (fun n => n = 10 || n = 12)

/-- Counterexample for C9: on this input text the extractor's step 3
(labeled sentence pattern `Предоставляет услуги...`) returns a
description containing the bare 10-digit numeral `1234567890` — a
tax-ID-shaped numeral — because steps 1–3 never test for digit shapes
(and even the step-4 veto `_contains_legal_info` does not flag a bare
10-digit run, as the last conjunct shows). -/
theorem description_taxid_counterexample :
    extractCleanDescription none []
        "Предоставляет услуги производство сувениров 1234567890 и обслуживание клиентов"
        "Ромашка"
      = some "производство сувениров 1234567890 и обслуживание клиентов" ∧
    hasTaxIdShapedNumeral
        "производство сувениров 1234567890 и обслуживание клиентов" = true ∧
    containsLegalInfo
        "производство сувениров 1234567890 и обслуживание клиентов" = false := by
  refine ⟨by decide, by decide, by decide⟩

/-- Witness for the amended C9: the no-legal-form guarantee evaluated at
the concrete extraction of the counterexample input. -/
theorem description_no_legal_form_witness :
    strContains (pyLower "производство сувениров 1234567890 и обслуживание клиентов")
        "ао" = false ∧
    strContains (pyLower "производство сувениров 1234567890 и обслуживание клиентов")
        "ооо" = false ∧
    strContains (pyLower "производство сувениров 1234567890 и обслуживание клиентов")
        "инн" = false :=
  description_no_legal_form none []
    "Предоставляет услуги производство сувениров 1234567890 и обслуживание клиентов"
    "Ромашка" "производство сувениров 1234567890 и обслуживание клиентов" (by decide)
